import Mathlib

/-!
CPU range primitive of the intel_gpu plugin.

A shallow embedding of `src/plugins/intel_gpu/src/graph/impls/cpu/range.cpp`:
`range_impl` (its cached evaluator `op`, `clone`, `create`, `execute_impl`,
`update_dispatch_data`) and `attach_range_impl`.

Objects that the C++ code reaches through pointers (events, memory handles, the
shared `ov::op::v4::Range` evaluator) are natural-number identities; their mutable
state lives in a `world` that is threaded through every operation, together with
the trace of the calls made so far.
-/

namespace cldnn

/-! ## Layouts and registry keys -/

/-- Modelled from the spec: the enumeration of element data types of a layout
(its declaration is not part of the translated file). `other` stands for every
further member of the enumeration. -/
inductive data_types where
  | f32 | f16 | i8 | i16 | i32 | i64 | u8
  | other (tag : Nat)
  deriving DecidableEq, Repr

/-- Modelled from the spec: the memory format tag of a layout. Only the three tags
named by `attach_range_impl` are spelled out; `other` stands for the rest. -/
inductive format where
  | bfyx | bfzyx | bfwzyx
  | other (tag : Nat)
  deriving DecidableEq, Repr

/-- Modelled from the spec: backend kinds of an implementation. -/
inductive impl_types where
  | cpu | ocl
  | other (tag : Nat)
  deriving DecidableEq, Repr

/-- Modelled from the spec: shape mode of a registry key, static or dynamic. -/
inductive shape_types where
  | static_shape | dynamic_shape
  deriving DecidableEq, Repr

/-- Modelled from the spec: operator kinds; `range` is the kind of this file. -/
inductive primitive_kind where
  | range
  | other (tag : Nat)
  deriving DecidableEq, Repr

/-- Modelled from the spec: the immutable descriptor of a buffer: data type,
format tag and shape. -/
structure layout where
  data_type : data_types
  fmt : format
  shape : List Nat
  deriving DecidableEq, Repr

/-- Number of elements described by a layout. -/
def layout.count (l : layout) : Nat := l.shape.foldl (· * ·) 1

/-- Modelled from the spec: element types of the evaluator library; `undefined`
is the type of a default-constructed evaluator. -/
inductive element_type where
  | undefined | f32 | f16 | i8 | i16 | i32 | i64 | u8
  | other (tag : Nat)
  deriving DecidableEq, Repr

/-- Modelled from the spec: the three lock modes of a memory handle. -/
inductive mem_lock_type where
  | read | write | read_write
  deriving DecidableEq, Repr

/-- A mode permits writing through the host view when it is write or read-write. -/
def mem_lock_type.permits_write : mem_lock_type → Bool
  | .read => false
  | .write => true
  | .read_write => true

/-! ## Memory handles, host tensors, instances -/

/-- A memory handle (`memory::ptr`): the identity of the buffer object and its
layout, which never changes. -/
structure memory where
  id : Nat
  layout : layout
  deriving DecidableEq, Repr

def memory.get_layout (m : memory) : cldnn.layout := m.layout

/-- A host tensor made by `make_host_tensor(layout, ptr)`: the layout and the host
pointer, which is a view of the buffer of memory object `data`. -/
structure host_tensor where
  layout : layout
  data : Nat
  deriving DecidableEq, Repr

def make_host_tensor (l : layout) (ptr : Nat) : host_tensor := ⟨l, ptr⟩

/-- What an evaluator sees of a host tensor: its layout and the elements currently
in the viewed buffer. -/
structure tensor_data where
  layout : layout
  data : List Int
  deriving DecidableEq, Repr

structure kernel_impl_params where
  output_layout : layout
  deriving DecidableEq, Repr

def kernel_impl_params.get_output_layout (p : kernel_impl_params) : layout := p.output_layout

/-- The part of `range_inst` that `execute_impl` reads: its id, the stream of its
network, the memory handles of its dependencies in order, its output handle and
its implementation parameters. -/
structure range_inst where
  id : String
  stream : Nat
  dependencies : List memory
  output_memory_ptr : memory
  impl_params : kernel_impl_params

def range_inst.get_impl_params (i : range_inst) : kernel_impl_params := i.impl_params

/-! ## Calls and the world -/

/-- The calls `execute_impl` makes on its collaborators, in the order made. -/
inductive call where
  /-- The call `e->wait()` has returned. -/
  | wait (e : Nat)
  /-- The call `stream.create_user_event(set)` returned event `ev`. -/
  | create_user_event (stream : Nat) (set : Bool) (ev : Nat)
  /-- Constructor of the scoped `mem_lock` on memory `m`. -/
  | mem_lock_ctor (m : Nat) (stream : Nat) (mode : mem_lock_type)
  /-- Destructor of the scoped `mem_lock` on memory `m`. -/
  | mem_lock_dtor (m : Nat) (stream : Nat)
  /-- The call `m->lock(stream, mode)`. -/
  | lock (m : Nat) (stream : Nat) (mode : mem_lock_type)
  /-- The call `m->unlock(stream)`. -/
  | unlock (m : Nat) (stream : Nat)
  /-- The call `std::make_shared<ov::op::v4::Range>()` returned object `r`. -/
  | make_shared (r : Nat)
  /-- The call `r->set_output_type(t)`. -/
  | set_output_type (r : Nat) (t : element_type)
  /-- The call `r->evaluate(outputs, inputs)` on an evaluator configured for `t`
  returned `ok`. -/
  | evaluate (r : Nat) (t : element_type) (outputs inputs : List host_tensor) (ok : Bool)
  /-- The call `ev->set()`. -/
  | set (ev : Nat)
  /-- The assertion failed and threw with diagnostic `msg`. -/
  | throw (msg : String)
  /-- Control returned to the caller with event `ev`. -/
  | ret (ev : Nat)
  deriving DecidableEq, Repr

def call.is_wait : call → Bool
  | .wait _ => true
  | _ => false

/-- Creation, signalling or return of a completion event. -/
def call.is_completion : call → Bool
  | .create_user_event _ _ _ => true
  | .set _ => true
  | .ret _ => true
  | _ => false

def call.is_create : call → Bool
  | .create_user_event _ _ _ => true
  | _ => false

def call.is_set : call → Bool
  | .set _ => true
  | _ => false

def call.is_ret : call → Bool
  | .ret _ => true
  | _ => false

def call.is_lock : call → Bool
  | .lock _ _ _ => true
  | _ => false

def call.is_unlock : call → Bool
  | .unlock _ _ => true
  | _ => false

def call.is_make_shared : call → Bool
  | .make_shared _ => true
  | _ => false

def call.is_set_output_type : call → Bool
  | .set_output_type _ _ => true
  | _ => false

def call.is_evaluate : call → Bool
  | .evaluate _ _ _ _ _ => true
  | _ => false

def call.is_mem_lock_ctor : call → Bool
  | .mem_lock_ctor _ _ _ => true
  | _ => false

def call.is_mem_lock_dtor : call → Bool
  | .mem_lock_dtor _ _ => true
  | _ => false

def call.is_throw : call → Bool
  | .throw _ => true
  | _ => false

/-- The place of a call in the course of `execute_impl`: waits, creation of the
event, scoped lock, input locks, construction, configuration, evaluation, then
unlocks or the throw, signalling, end of the scoped lock, return. -/
def call.phase : call → Nat
  | .wait _ => 0
  | .create_user_event _ _ _ => 1
  | .mem_lock_ctor _ _ _ => 2
  | .lock _ _ _ => 3
  | .make_shared _ => 4
  | .set_output_type _ _ => 5
  | .evaluate _ _ _ _ _ => 6
  | .unlock _ _ => 7
  | .throw _ => 7
  | .set _ => 8
  | .mem_lock_dtor _ _ => 9
  | .ret _ => 10

/-- The mutable state behind the pointers: the stream's event allocator, the
status of user events, the lock count and contents of every memory object, the
evaluator objects allocated so far with their configured output type, and the
trace of calls. -/
structure world where
  next_event : Nat
  signaled : Nat → Bool
  lock_count : Nat → Nat
  buffer : Nat → List Int
  next_op : Nat
  op_output_type : Nat → element_type
  trace : List call

def world.emit (w : world) (c : call) : world :=
  { w with trace := w.trace ++ [c] }

/-- The calls made between two worlds of one run. -/
def calls_between (before after : world) : List call :=
  after.trace.drop before.trace.length

/-- The call `e->wait()`: blocks until the producer of `e` has signalled it; the
model records its return. -/
def event_wait (w : world) (e : Nat) : world := w.emit (.wait e)

/-- The call `stream.create_user_event(set)`: a fresh event of the stream whose
status is `set`. -/
def create_user_event (w : world) (stream : Nat) (set : Bool) : Nat × world :=
  (w.next_event,
   { w with
     next_event := w.next_event + 1
     signaled := fun e => if e = w.next_event then set else w.signaled e
     trace := w.trace ++ [.create_user_event stream set w.next_event] })

/-- The call `ev->set()`: the event becomes signaled. -/
def event_set (w : world) (ev : Nat) : world :=
  { w with
    signaled := fun e => if e = ev then true else w.signaled e
    trace := w.trace ++ [.set ev] }

/-- Modelled from the spec: `lock(stream, mode)` of a memory handle, which counts
the outstanding locks of the object and returns the host pointer to its buffer. -/
def memory.lock (m : memory) (w : world) (stream : Nat) (mode : mem_lock_type) : Nat × world :=
  (m.id,
   { w with
     lock_count := fun i => if i = m.id then w.lock_count i + 1 else w.lock_count i
     trace := w.trace ++ [.lock m.id stream mode] })

/-- Modelled from the spec: `unlock(stream)` of a memory handle releases one lock. -/
def memory.unlock (m : memory) (w : world) (stream : Nat) : world :=
  { w with
    lock_count := fun i => if i = m.id then w.lock_count i - 1 else w.lock_count i
    trace := w.trace ++ [.unlock m.id stream] }

/-- Modelled from the spec: the constructor of the scoped lock `mem_lock<T, mode>`,
which takes one lock of the handle; `data()` of the guard is the returned pointer. -/
def mem_lock_acquire (m : memory) (w : world) (stream : Nat) (mode : mem_lock_type) : Nat × world :=
  (m.id,
   { w with
     lock_count := fun i => if i = m.id then w.lock_count i + 1 else w.lock_count i
     trace := w.trace ++ [.mem_lock_ctor m.id stream mode] })

/-- Modelled from the spec: the destructor of the scoped lock, run on every exit
path of the scope, which releases the lock taken by the constructor. -/
def mem_lock_release (m : memory) (w : world) (stream : Nat) : world :=
  { w with
    lock_count := fun i => if i = m.id then w.lock_count i - 1 else w.lock_count i
    trace := w.trace ++ [.mem_lock_dtor m.id stream] }

/-- The collaborators of `execute_impl` that are not part of the translated file:
the conversion of a layout data type to an element type, the numeric evaluator
(given its configured output type, the output views and the input views it answers
success or failure and the elements the output view holds afterwards), and the text
the assertion puts in front of its explanation. -/
structure backend where
  data_type_to_element_type : data_types → element_type
  evaluate : element_type → List tensor_data → List tensor_data → Bool × List Int
  assert_header : String

/-- The call `std::make_shared<ov::op::v4::Range>()`: a fresh evaluator object
whose output type is not configured yet. -/
def make_shared_range (w : world) : Nat × world :=
  (w.next_op,
   { w with
     next_op := w.next_op + 1
     op_output_type := fun r => if r = w.next_op then .undefined else w.op_output_type r
     trace := w.trace ++ [.make_shared w.next_op] })

/-- The call `r->set_output_type(t)`. -/
def set_output_type (w : world) (r : Nat) (t : element_type) : world :=
  { w with
    op_output_type := fun x => if x = r then t else w.op_output_type x
    trace := w.trace ++ [.set_output_type r t] }

/-- The elements a host tensor views in a world. -/
def host_tensor.view (w : world) (t : host_tensor) : tensor_data :=
  ⟨t.layout, w.buffer t.data⟩

/-- The call `r->evaluate(outputs, inputs)`: the evaluator reads the views and
writes the first output view in place. -/
def range_evaluate (env : backend) (w : world) (r : Nat)
    (outputs inputs : List host_tensor) : Bool × world :=
  let res := env.evaluate (w.op_output_type r) (outputs.map (host_tensor.view w))
    (inputs.map (host_tensor.view w))
  (res.1,
   { w with
     buffer := fun i =>
       match outputs.head? with
       | some o => if i = o.data then res.2 else w.buffer i
       | none => w.buffer i
     trace := w.trace ++ [.evaluate r (w.op_output_type r) outputs inputs res.1] })

/-- The diagnostic of `OPENVINO_ASSERT(cond, args...)`: the header of the check
followed by the explanation arguments written one after the other. -/
def OPENVINO_ASSERT_message (header : String) (args : List String) : String :=
  header ++ String.join args

/-! ## range_impl -/

/-- The implementation object: the kernel name held by the parent class and the
shared pointer `op` to the cached evaluator, empty until first use. -/
structure range_impl where
  kernel_name : String
  op : Option Nat
  deriving DecidableEq, Repr

/-- The default constructor `range_impl() : parent("range_cpu_impl") {}`. -/
def range_impl.default : range_impl := ⟨"range_cpu_impl", none⟩

/-- The method `clone()`: `make_unique<range_impl>(*this)`, the member-wise copy,
which copies the shared pointer `op`. -/
def range_impl.clone (self : range_impl) : range_impl :=
  { kernel_name := self.kernel_name, op := self.op }

/-- The hook `update_dispatch_data`, whose body is empty. -/
def range_impl.update_dispatch_data (self : range_impl) (_impl_param : kernel_impl_params) :
    range_impl := self

/-- The program node of a range operator, as far as `create` is concerned. -/
structure range_node where
  id : String

/-- The static factory `create`, which ignores both arguments. -/
def range_impl.create (_arg : range_node) (_impl_param : kernel_impl_params) : range_impl :=
  range_impl.default

/-- How a call of `execute_impl` ends. -/
inductive outcome where
  | returned (ev : Nat)
  | fatal (msg : String)
  deriving DecidableEq, Repr

structure exec_result where
  out : outcome
  impl : range_impl
  world : world

/-- The loop that copies `dep_memory_ptr(i)` for every dependency into
`input_mem_ptrs`. -/
def collect_input_mem_ptrs (inst : range_inst) : List memory :=
  inst.dependencies.foldl (fun acc m => acc ++ [m]) []

/-- One round of the loop over the inputs: lock the input in read mode and push
the host tensor made of its layout and the returned pointer. -/
def lock_input_step (stream : Nat) (acc : List host_tensor × world) (m : memory) :
    List host_tensor × world :=
  let p := m.lock acc.2 stream .read
  (acc.1 ++ [make_host_tensor m.get_layout p.1], p.2)

/-- The loop that locks every input in read mode and pushes its host tensor. -/
def lock_inputs (stream : Nat) (input_mem_ptrs : List memory) (w : world) :
    List host_tensor × world :=
  input_mem_ptrs.foldl (lock_input_step stream) ([], w)

/-- The loop that unlocks every input. -/
def unlock_inputs (stream : Nat) (input_mem_ptrs : List memory) (w : world) : world :=
  input_mem_ptrs.foldl (fun w m => m.unlock w stream) w

/-- The lazy construction `if (!op) ...`: returns the evaluator to use, the
updated implementation and world. -/
def ensure_op (env : backend) (self : range_impl) (inst : range_inst) (w : world) :
    Nat × range_impl × world :=
  match self.op with
  | some r => (r, self, w)
  | none =>
    let output_dt := inst.get_impl_params.get_output_layout.data_type
    let p := make_shared_range w
    let w := set_output_type p.2 p.1 (env.data_type_to_element_type output_dt)
    (p.1, { self with op := some p.1 }, w)

/-- The method `range_impl::execute_impl(events, instance)`. -/
def range_impl.execute_impl (env : backend) (self : range_impl) (events : List Nat)
    (inst : range_inst) (w : world) : exec_result :=
  let stream := inst.stream
  let w := events.foldl event_wait w
  let e := create_user_event w stream false
  let ev := e.1
  let w := e.2
  let input_mem_ptrs := collect_input_mem_ptrs inst
  let output_mem_ptr := inst.output_memory_ptr
  let output_lock := mem_lock_acquire output_mem_ptr w stream .read
  let w := output_lock.2
  let li := lock_inputs stream input_mem_ptrs w
  let input_host_tensors := li.1
  let w := li.2
  let output_host_tensors := [make_host_tensor output_mem_ptr.get_layout output_lock.1]
  let o := ensure_op env self inst w
  let op := o.1
  let self := o.2.1
  let w := o.2.2
  let r := range_evaluate env w op output_host_tensors input_host_tensors
  let w := r.2
  if r.1 then
    let w := unlock_inputs stream input_mem_ptrs w
    let w := event_set w ev
    let w := mem_lock_release output_mem_ptr w stream
    ⟨.returned ev, self, w.emit (.ret ev)⟩
  else
    let msg := OPENVINO_ASSERT_message env.assert_header
      ["[GPU] Couldn\x27t execute range primitive with id ", inst.id]
    let w := w.emit (.throw msg)
    let w := mem_lock_release output_mem_ptr w stream
    ⟨.fatal msg, self, w⟩

/-- The calls made by one call of `execute_impl`. -/
def execute_calls (env : backend) (self : range_impl) (events : List Nat)
    (inst : range_inst) (w : world) : List call :=
  calls_between w (self.execute_impl env events inst w).world

/-! ## The implementation registry -/

/-- Modelled from the spec: the key of a registry entry. -/
structure impl_key where
  kind : primitive_kind
  impl : impl_types
  shape : shape_types
  dt : data_types
  fmt : format
  deriving DecidableEq, Repr

/-- Modelled from the spec: the registry, a table of keyed factories in which the
entry registered last for a key is found first. -/
abbrev implementation_map (F : Type) := List (impl_key × F)

/-- Modelled from the spec: `register` (`implementation_map<T>::add`) expands the
product of types and formats into keyed entries that all point at the factory. -/
def implementation_map.add {F : Type} (reg : implementation_map F) (kind : primitive_kind)
    (impl : impl_types) (shape : shape_types) (factory : F)
    (types : List data_types) (formats : List format) : implementation_map F :=
  (types.flatMap fun t => formats.map fun f => (impl_key.mk kind impl shape t f, factory)) ++ reg

/-- The failure of a registry lookup. -/
inductive lookup_error where
  | NotFound
  deriving DecidableEq, Repr

/-- Modelled from the spec: `lookup` returns the factory registered for the key or
fails with NotFound. -/
def implementation_map.lookup {F : Type} (reg : implementation_map F) (kind : primitive_kind)
    (impl : impl_types) (shape : shape_types) (dt : data_types) (fmt : format) :
    Except lookup_error F :=
  match reg.find? (fun e => decide (e.1 = impl_key.mk kind impl shape dt fmt)) with
  | some e => .ok e.2
  | none => .error .NotFound

/-- The factories stored for the range operator. -/
abbrev range_factory := range_node → kernel_impl_params → range_impl

/-- The formats listed by `attach_range_impl`. -/
def attach_range_formats : List format := [.bfyx, .bfzyx, .bfwzyx]

/-- The types listed by `attach_range_impl`. -/
def attach_range_types : List data_types := [.f32, .f16, .i32, .i64, .i8, .u8]

/-- The constructor `attach_range_impl::attach_range_impl()`, acting on the registry
it is run on. -/
def attach_range_impl (reg : implementation_map range_factory) :
    implementation_map range_factory :=
  let formats := attach_range_formats
  let types := attach_range_types
  let reg := implementation_map.add reg .range .cpu .static_shape range_impl.create types formats
  implementation_map.add reg .range .cpu .dynamic_shape range_impl.create types formats

/-! ## Vocabulary of the properties -/

/-- In trace `t` every call satisfying `p` stands before every call satisfying `q`. -/
def all_before (p q : call → Bool) (t : List call) : Prop :=
  ∀ (i j : Nat) (a b : call), t[i]? = some a → t[j]? = some b → p a = true → q b = true → i < j

/-- The calls of `l` are in the order of their phases and none of them has a
phase below `k`. -/
def sorted_from (k : Nat) (l : List call) : Prop :=
  l.Pairwise (fun a b => a.phase ≤ b.phase) ∧ ∀ b ∈ l, k ≤ b.phase

/-- The diagnostic `msg` contains the text `id`. -/
def mentions (msg id : String) : Prop := id.data <:+: msg.data

/-- The evaluator an instance uses in a world: the object its `op` points at, or the
next object to be allocated when `op` is empty. -/
def range_impl.op_ref (self : range_impl) (w : world) : Nat := self.op.getD w.next_op

/-- The output type of the evaluator used by a call: the cached configuration, or
the converted output data type of the instance when the evaluator is built now. -/
def range_impl.op_type (env : backend) (self : range_impl) (inst : range_inst) (w : world) :
    element_type :=
  match self.op with
  | some r => w.op_output_type r
  | none => env.data_type_to_element_type inst.impl_params.output_layout.data_type

/-- The calls of the lazy construction: none when `op` is set. -/
def range_impl.construct_calls (env : backend) (self : range_impl) (inst : range_inst)
    (w : world) : List call :=
  match self.op with
  | some _ => []
  | none => [.make_shared w.next_op,
      .set_output_type w.next_op
        (env.data_type_to_element_type inst.impl_params.output_layout.data_type)]

/-- The host tensors of the dependencies, in dependency order. -/
def range_inst.input_tensors (inst : range_inst) : List host_tensor :=
  inst.dependencies.map fun m => make_host_tensor m.layout m.id

/-- The host tensor of the output handle. -/
def range_inst.output_tensors (inst : range_inst) : List host_tensor :=
  [make_host_tensor inst.output_memory_ptr.layout inst.output_memory_ptr.id]

/-- What the evaluator answers in a call started in world `w`. -/
def range_impl.eval_result (env : backend) (self : range_impl) (inst : range_inst)
    (w : world) : Bool × List Int :=
  env.evaluate (self.op_type env inst w)
    [tensor_data.mk inst.output_memory_ptr.layout (w.buffer inst.output_memory_ptr.id)]
    (inst.dependencies.map fun m => tensor_data.mk m.layout (w.buffer m.id))

/-- The diagnostic of a failed call. -/
def failure_message (env : backend) (inst : range_inst) : String :=
  OPENVINO_ASSERT_message env.assert_header
    ["[GPU] Couldn\x27t execute range primitive with id ", inst.id]

/-- The calls after the evaluator has answered: on success the unlocks, the
signalling, the end of the scoped lock and the return; on failure the throw and the
end of the scoped lock. -/
def completion_calls (env : backend) (self : range_impl) (inst : range_inst) (w : world) :
    List call :=
  if (self.eval_result env inst w).1 then
    inst.dependencies.map (fun m => call.unlock m.id inst.stream)
      ++ [.set w.next_event,
          .mem_lock_dtor inst.output_memory_ptr.id inst.stream,
          .ret w.next_event]
  else
    [.throw (failure_message env inst),
     .mem_lock_dtor inst.output_memory_ptr.id inst.stream]

/-- The whole trace of one call of `execute_impl`, written out. -/
def expected_calls (env : backend) (self : range_impl) (events : List Nat)
    (inst : range_inst) (w : world) : List call :=
  events.map call.wait
    ++ (.create_user_event inst.stream false w.next_event
        :: .mem_lock_ctor inst.output_memory_ptr.id inst.stream .read
        :: (inst.dependencies.map (fun m => call.lock m.id inst.stream .read)
            ++ (self.construct_calls env inst w
                ++ (.evaluate (self.op_ref w) (self.op_type env inst w) inst.output_tensors
                      inst.input_tensors (self.eval_result env inst w).1
                    :: completion_calls env self inst w))))

/-! ## Concrete collaborators and inputs -/

/-- Conversion of a layout data type to the element type of the same name. -/
def ref_data_type_to_element_type : data_types → element_type
  | .f32 => .f32
  | .f16 => .f16
  | .i8 => .i8
  | .i16 => .i16
  | .i32 => .i32
  | .i64 => .i64
  | .u8 => .u8
  | .other n => .other n

/-- Modelled from the spec: the standard arithmetic-sequence generator. It reads the
start from the first input, the step from the third input when there is one (else
the step is one), and fills the output view, whose length is the element count of
its layout; it fails when there is no start value. -/
def arith_sequence_evaluate (_t : element_type) (outputs inputs : List tensor_data) :
    Bool × List Int :=
  match outputs, inputs with
  | out :: _, start :: rest =>
    match start.data.head? with
    | some s =>
      let step : Int := ((rest.get? 1).bind fun t => t.data.head?).getD 1
      (true, (List.range out.layout.count).map fun i => s + (i : Int) * step)
    | none => (false, out.data)
  | out :: _, [] => (false, out.data)
  | [], _ => (false, [])

/-- A backend whose evaluator is the arithmetic-sequence generator. -/
def ref_backend : backend :=
  { data_type_to_element_type := ref_data_type_to_element_type
    evaluate := arith_sequence_evaluate
    assert_header := "Check failed: " }

/-- A backend whose evaluator always fails and leaves the output as it was. -/
def failing_backend : backend :=
  { data_type_to_element_type := ref_data_type_to_element_type
    evaluate := fun _ outputs _ => (false, (outputs.head?.map tensor_data.data).getD [])
    assert_header := "Check failed: " }

/-- A world in which memory 10 holds the scalar 0, memory 11 the scalar 5 and
memory 12 the scalar 1, nothing is locked and nothing has been allocated. -/
def w0 : world :=
  { next_event := 0
    signaled := fun _ => false
    lock_count := fun _ => 0
    buffer := fun i => if i = 10 then [0] else if i = 11 then [5] else if i = 12 then [1] else []
    next_op := 0
    op_output_type := fun _ => .undefined
    trace := [] }

def scalar_i32 : layout := ⟨.i32, .bfyx, []⟩

def out_i32 : layout := ⟨.i32, .bfyx, [5]⟩

def out_f32 : layout := ⟨.f32, .bfyx, [5]⟩

/-- The instance of the end-to-end scenario: one dependency (the start, 0) and an
int32 output of length 5. -/
def inst_one_dep : range_inst :=
  { id := "range:0"
    stream := 7
    dependencies := [⟨10, scalar_i32⟩]
    output_memory_ptr := ⟨20, out_i32⟩
    impl_params := ⟨out_i32⟩ }

/-- The same operator after its output data type changed to f32. -/
def inst_one_dep_f32 : range_inst :=
  { id := "range:0"
    stream := 7
    dependencies := [⟨10, scalar_i32⟩]
    output_memory_ptr := ⟨20, out_f32⟩
    impl_params := ⟨out_f32⟩ }

/-- An instance with the three dependencies start, stop and step. -/
def inst_three_deps : range_inst :=
  { id := "range:1"
    stream := 7
    dependencies := [⟨10, scalar_i32⟩, ⟨11, scalar_i32⟩, ⟨12, scalar_i32⟩]
    output_memory_ptr := ⟨20, out_i32⟩
    impl_params := ⟨out_i32⟩ }

/-- An instance whose first and third dependency are the same memory handle 10
(the start and the step come from one buffer). -/
def inst_aliased_deps : range_inst :=
  { id := "range:3"
    stream := 7
    dependencies := [⟨10, scalar_i32⟩, ⟨11, scalar_i32⟩, ⟨10, scalar_i32⟩]
    output_memory_ptr := ⟨20, out_i32⟩
    impl_params := ⟨out_i32⟩ }

/-- The first call on a fresh implementation: it builds the evaluator for int32. -/
def built_i32 : exec_result :=
  range_impl.default.execute_impl ref_backend [] inst_one_dep w0

/-! ## Lemmas on the loops -/

theorem foldl_event_wait (events : List Nat) (w : world) :
    events.foldl event_wait w = { w with trace := w.trace ++ events.map call.wait } := by
  induction events generalizing w with
  | nil => simp
  | cons e es ih => simp [ih, event_wait, world.emit]

theorem collect_input_mem_ptrs_eq (inst : range_inst) :
    collect_input_mem_ptrs inst = inst.dependencies := by
  have h : ∀ (ms acc : List memory), ms.foldl (fun acc m => acc ++ [m]) acc = acc ++ ms := by
    intro ms
    induction ms with
    | nil => intro acc; simp
    | cons m ms ih => intro acc; simp [ih]
  simpa [collect_input_mem_ptrs] using h inst.dependencies []

theorem lock_inputs_fold (s : Nat) (ms : List memory) (acc : List host_tensor) (w : world) :
    ms.foldl (lock_input_step s) (acc, w)
    = (acc ++ ms.map (fun m => make_host_tensor m.layout m.id),
       { w with
         lock_count := fun i => w.lock_count i + (ms.map memory.id).count i
         trace := w.trace ++ ms.map (fun m => call.lock m.id s .read) }) := by
  induction ms generalizing acc w with
  | nil => simp
  | cons m ms ih =>
    rw [List.foldl_cons]
    have hstep : lock_input_step s (acc, w) m
        = (acc ++ [make_host_tensor m.layout m.id],
           { w with
             lock_count := fun i => if i = m.id then w.lock_count i + 1 else w.lock_count i
             trace := w.trace ++ [call.lock m.id s .read] }) := rfl
    rw [hstep, ih]
    simp only [List.map_cons, List.append_assoc, List.singleton_append, Prod.mk.injEq, true_and]
    congr 1
    funext i
    by_cases h : i = m.id
    · subst h; simp [List.count_cons]; omega
    · have h2 : ¬ m.id = i := fun e => h e.symm
      simp [List.count_cons, h, h2]

theorem lock_inputs_eq (s : Nat) (ms : List memory) (w : world) :
    lock_inputs s ms w
    = (ms.map (fun m => make_host_tensor m.layout m.id),
       { w with
         lock_count := fun i => w.lock_count i + (ms.map memory.id).count i
         trace := w.trace ++ ms.map (fun m => call.lock m.id s .read) }) := by
  simpa [lock_inputs] using lock_inputs_fold s ms [] w

theorem unlock_inputs_eq (s : Nat) (ms : List memory) (w : world) :
    unlock_inputs s ms w
    = { w with
        lock_count := fun i => w.lock_count i - (ms.map memory.id).count i
        trace := w.trace ++ ms.map (fun m => call.unlock m.id s) } := by
  unfold unlock_inputs
  induction ms generalizing w with
  | nil => simp
  | cons m ms ih =>
    rw [List.foldl_cons, ih]
    simp only [memory.unlock, List.map_cons, List.append_assoc, List.singleton_append]
    congr 1
    funext i
    by_cases h : i = m.id
    · subst h; simp [List.count_cons]; omega
    · have h2 : ¬ m.id = i := fun e => h e.symm
      simp [List.count_cons, h, h2]

/-! ## The shape of one call -/

theorem execute_impl_ok (env : backend) (self : range_impl) (events : List Nat)
    (inst : range_inst) (w : world) (hok : (self.eval_result env inst w).1 = true) :
    self.execute_impl env events inst w
    = { out := .returned w.next_event
        impl := { self with op := some (self.op_ref w) }
        world :=
          { next_event := w.next_event + 1
            signaled := fun e => if e = w.next_event then true else w.signaled e
            lock_count := w.lock_count
            buffer := fun i =>
              if i = inst.output_memory_ptr.id then (self.eval_result env inst w).2
              else w.buffer i
            next_op := match self.op with
              | some _ => w.next_op
              | none => w.next_op + 1
            op_output_type := fun r =>
              match self.op with
              | some _ => w.op_output_type r
              | none => if r = w.next_op then self.op_type env inst w else w.op_output_type r
            trace := w.trace ++ expected_calls env self events inst w } } := by
  rcases self with ⟨kn, op⟩
  cases op with
  | none =>
    simp only [range_impl.eval_result, range_impl.op_type] at hok
    simp [range_impl.execute_impl, foldl_event_wait, collect_input_mem_ptrs_eq, lock_inputs_eq,
      unlock_inputs_eq, ensure_op, create_user_event, mem_lock_acquire, make_shared_range,
      set_output_type, range_evaluate, host_tensor.view, make_host_tensor, memory.get_layout,
      range_inst.get_impl_params, kernel_impl_params.get_output_layout, event_set,
      mem_lock_release, world.emit, expected_calls, completion_calls, range_impl.construct_calls,
      range_impl.op_ref, range_impl.op_type, range_impl.eval_result, range_inst.input_tensors,
      range_inst.output_tensors, failure_message, hok, Function.comp_def]
    refine ⟨?_, ?_, ?_⟩
    · funext e; by_cases h : e = w.next_event <;> simp [h]
    · funext i; by_cases h : i = inst.output_memory_ptr.id <;> simp [h]
    · funext x; by_cases h : x = w.next_op <;> simp [h]
  | some r =>
    simp only [range_impl.eval_result, range_impl.op_type] at hok
    simp [range_impl.execute_impl, foldl_event_wait, collect_input_mem_ptrs_eq, lock_inputs_eq,
      unlock_inputs_eq, ensure_op, create_user_event, mem_lock_acquire, make_shared_range,
      set_output_type, range_evaluate, host_tensor.view, make_host_tensor, memory.get_layout,
      range_inst.get_impl_params, kernel_impl_params.get_output_layout, event_set,
      mem_lock_release, world.emit, expected_calls, completion_calls, range_impl.construct_calls,
      range_impl.op_ref, range_impl.op_type, range_impl.eval_result, range_inst.input_tensors,
      range_inst.output_tensors, failure_message, hok, Function.comp_def]
    refine ⟨?_, ?_⟩
    · funext e; by_cases h : e = w.next_event <;> simp [h]
    · funext i; by_cases h : i = inst.output_memory_ptr.id <;> simp [h]

theorem execute_impl_fail (env : backend) (self : range_impl) (events : List Nat)
    (inst : range_inst) (w : world) (hok : (self.eval_result env inst w).1 = false) :
    self.execute_impl env events inst w
    = { out := .fatal (failure_message env inst)
        impl := { self with op := some (self.op_ref w) }
        world :=
          { next_event := w.next_event + 1
            signaled := fun e => if e = w.next_event then false else w.signaled e
            lock_count := fun i => w.lock_count i + (inst.dependencies.map memory.id).count i
            buffer := fun i =>
              if i = inst.output_memory_ptr.id then (self.eval_result env inst w).2
              else w.buffer i
            next_op := match self.op with
              | some _ => w.next_op
              | none => w.next_op + 1
            op_output_type := fun r =>
              match self.op with
              | some _ => w.op_output_type r
              | none => if r = w.next_op then self.op_type env inst w else w.op_output_type r
            trace := w.trace ++ expected_calls env self events inst w } } := by
  rcases self with ⟨kn, op⟩
  cases op with
  | none =>
    simp only [range_impl.eval_result, range_impl.op_type] at hok
    simp [range_impl.execute_impl, foldl_event_wait, collect_input_mem_ptrs_eq, lock_inputs_eq,
      unlock_inputs_eq, ensure_op, create_user_event, mem_lock_acquire, make_shared_range,
      set_output_type, range_evaluate, host_tensor.view, make_host_tensor, memory.get_layout,
      range_inst.get_impl_params, kernel_impl_params.get_output_layout, event_set,
      mem_lock_release, world.emit, expected_calls, completion_calls, range_impl.construct_calls,
      range_impl.op_ref, range_impl.op_type, range_impl.eval_result, range_inst.input_tensors,
      range_inst.output_tensors, failure_message, hok, Function.comp_def]
    refine ⟨?_, ?_⟩
    · funext i; by_cases h : i = inst.output_memory_ptr.id <;> simp [h]
    · funext x; by_cases h : x = w.next_op <;> simp [h]
  | some r =>
    simp only [range_impl.eval_result, range_impl.op_type] at hok
    simp [range_impl.execute_impl, foldl_event_wait, collect_input_mem_ptrs_eq, lock_inputs_eq,
      unlock_inputs_eq, ensure_op, create_user_event, mem_lock_acquire, make_shared_range,
      set_output_type, range_evaluate, host_tensor.view, make_host_tensor, memory.get_layout,
      range_inst.get_impl_params, kernel_impl_params.get_output_layout, event_set,
      mem_lock_release, world.emit, expected_calls, completion_calls, range_impl.construct_calls,
      range_impl.op_ref, range_impl.op_type, range_impl.eval_result, range_inst.input_tensors,
      range_inst.output_tensors, failure_message, hok, Function.comp_def]
    funext i; by_cases h : i = inst.output_memory_ptr.id <;> simp [h]

theorem execute_impl_trace (env : backend) (self : range_impl) (events : List Nat)
    (inst : range_inst) (w : world) :
    (self.execute_impl env events inst w).world.trace
      = w.trace ++ expected_calls env self events inst w := by
  cases hok : (self.eval_result env inst w).1 with
  | true => rw [execute_impl_ok env self events inst w hok]
  | false => rw [execute_impl_fail env self events inst w hok]

theorem execute_calls_eq (env : backend) (self : range_impl) (events : List Nat)
    (inst : range_inst) (w : world) :
    execute_calls env self events inst w = expected_calls env self events inst w := by
  simp [execute_calls, calls_between, execute_impl_trace]

theorem execute_impl_impl (env : backend) (self : range_impl) (events : List Nat)
    (inst : range_inst) (w : world) :
    (self.execute_impl env events inst w).impl = { self with op := some (self.op_ref w) } := by
  cases hok : (self.eval_result env inst w).1 with
  | true => rw [execute_impl_ok env self events inst w hok]
  | false => rw [execute_impl_fail env self events inst w hok]

theorem execute_impl_out (env : backend) (self : range_impl) (events : List Nat)
    (inst : range_inst) (w : world) :
    (self.execute_impl env events inst w).out
      = if (self.eval_result env inst w).1 then .returned w.next_event
        else .fatal (failure_message env inst) := by
  cases hok : (self.eval_result env inst w).1 with
  | true => rw [execute_impl_ok env self events inst w hok]; simp
  | false => rw [execute_impl_fail env self events inst w hok]; simp

/-! ## Lemmas on traces -/

theorem all_before_of_split (p q : call → Bool) (xs ys : List call)
    (hq : ∀ a ∈ xs, q a = false) (hp : ∀ b ∈ ys, p b = false) :
    all_before p q (xs ++ ys) := by
  intro i j a b hi hj hpa hqb
  have hi2 : i < xs.length := by
    by_contra hge
    rw [List.getElem?_append_right (Nat.le_of_not_lt hge)] at hi
    have := hp a (List.getElem?_mem hi)
    simp [hpa] at this
  have hj2 : xs.length ≤ j := by
    by_contra hlt
    rw [List.getElem?_append_left (Nat.lt_of_not_le hlt)] at hj
    have := hq b (List.getElem?_mem hj)
    simp [hqb] at this
  omega

theorem filter_map_all (α : Type) (f : α → call) (p : call → Bool) (l : List α)
    (h : ∀ x, p (f x) = true) : (l.map f).filter p = l.map f := by
  apply List.filter_eq_self.2
  intro a ha
  obtain ⟨x, _, rfl⟩ := List.mem_map.1 ha
  exact h x

theorem mem_construct_calls (env : backend) (self : range_impl) (inst : range_inst)
    (w : world) (c : call) (h : c ∈ self.construct_calls env inst w) :
    self.op = none ∧ (c = .make_shared w.next_op ∨
      c = .set_output_type w.next_op
        (env.data_type_to_element_type inst.impl_params.output_layout.data_type)) := by
  unfold range_impl.construct_calls at h
  cases hop : self.op with
  | none => simpa [hop] using h
  | some r => simp [hop] at h

theorem mem_completion_calls (env : backend) (self : range_impl) (inst : range_inst)
    (w : world) (c : call) (h : c ∈ completion_calls env self inst w) :
    ((self.eval_result env inst w).1 = true ∧
      ((∃ m ∈ inst.dependencies, call.unlock m.id inst.stream = c) ∨ c = .set w.next_event ∨
        c = .mem_lock_dtor inst.output_memory_ptr.id inst.stream ∨ c = .ret w.next_event)) ∨
    ((self.eval_result env inst w).1 = false ∧
      (c = .throw (failure_message env inst) ∨
        c = .mem_lock_dtor inst.output_memory_ptr.id inst.stream)) := by
  unfold completion_calls at h
  cases hok : (self.eval_result env inst w).1 with
  | true =>
    left
    simp only [hok, if_true, List.mem_append, List.mem_map, List.mem_cons,
      List.mem_singleton, List.not_mem_nil, or_false] at h
    exact ⟨rfl, h⟩
  | false =>
    right
    simpa [hok] using h

/-- Every call after the waits of one `execute_impl` is one of the listed kinds. -/
theorem mem_expected_rest (env : backend) (self : range_impl) (inst : range_inst)
    (w : world) (c : call)
    (h : c ∈ (call.create_user_event inst.stream false w.next_event
        :: .mem_lock_ctor inst.output_memory_ptr.id inst.stream .read
        :: (inst.dependencies.map (fun m => call.lock m.id inst.stream .read)
            ++ (self.construct_calls env inst w
                ++ (.evaluate (self.op_ref w) (self.op_type env inst w) inst.output_tensors
                      inst.input_tensors (self.eval_result env inst w).1
                    :: completion_calls env self inst w))))) :
    c = .create_user_event inst.stream false w.next_event
    ∨ c = .mem_lock_ctor inst.output_memory_ptr.id inst.stream .read
    ∨ (∃ m ∈ inst.dependencies, call.lock m.id inst.stream .read = c)
    ∨ c ∈ self.construct_calls env inst w
    ∨ c = .evaluate (self.op_ref w) (self.op_type env inst w) inst.output_tensors
          inst.input_tensors (self.eval_result env inst w).1
    ∨ c ∈ completion_calls env self inst w := by
  simpa only [List.mem_cons, List.mem_append, List.mem_map] using h

theorem expected_rest_no_wait (env : backend) (self : range_impl) (inst : range_inst)
    (w : world) (c : call)
    (h : c ∈ (call.create_user_event inst.stream false w.next_event
        :: .mem_lock_ctor inst.output_memory_ptr.id inst.stream .read
        :: (inst.dependencies.map (fun m => call.lock m.id inst.stream .read)
            ++ (self.construct_calls env inst w
                ++ (.evaluate (self.op_ref w) (self.op_type env inst w) inst.output_tensors
                      inst.input_tensors (self.eval_result env inst w).1
                    :: completion_calls env self inst w))))) :
    c.is_wait = false := by
  rcases mem_expected_rest env self inst w c h with h | h | ⟨m, _, h⟩ | h | h | h
  · subst h; rfl
  · subst h; rfl
  · subst h; rfl
  · rcases (mem_construct_calls env self inst w c h).2 with h | h <;> (subst h; rfl)
  · subst h; rfl
  · rcases mem_completion_calls env self inst w c h with ⟨_, ⟨m, _, h⟩ | h | h | h⟩ | ⟨_, h | h⟩ <;>
      (subst h; rfl)

/-! ## Ordering of the predecessor waits -/

/-- C1: in the trace of every call of `range_impl::execute_impl` the waits are
exactly the waits on the predecessor events, in their order; every one of them
stands before every creation, signalling or return of a completion event; the
completion event is created in every call; and when the call returns an event its
`set` and its return are in the trace, hence after all the waits. -/
theorem execute_impl_waits_precede_completion (env : backend) (self : range_impl)
    (events : List Nat) (inst : range_inst) (w : world) :
    (execute_calls env self events inst w).filter call.is_wait = events.map call.wait
    ∧ all_before call.is_wait call.is_completion (execute_calls env self events inst w)
    ∧ call.create_user_event inst.stream false w.next_event
        ∈ execute_calls env self events inst w
    ∧ (∀ e ∈ events, ∃ i : Nat,
        (execute_calls env self events inst w)[i]? = some (call.wait e)
        ∧ ∀ (j : Nat) (c : call), (execute_calls env self events inst w)[j]? = some c →
            c.is_completion = true → i < j)
    ∧ (∀ ev, (self.execute_impl env events inst w).out = .returned ev →
        call.set ev ∈ execute_calls env self events inst w
        ∧ call.ret ev ∈ execute_calls env self events inst w) := by
  have hbefore : all_before call.is_wait call.is_completion
      (execute_calls env self events inst w) := by
    rw [execute_calls_eq]
    unfold expected_calls
    apply all_before_of_split
    · intro a ha
      obtain ⟨e, _, rfl⟩ := List.mem_map.1 ha
      rfl
    · exact expected_rest_no_wait env self inst w
  have hfilter : (execute_calls env self events inst w).filter call.is_wait
      = events.map call.wait := by
    rw [execute_calls_eq]
    unfold expected_calls
    rw [List.filter_append, filter_map_all Nat call.wait call.is_wait events (fun _ => rfl),
      List.filter_eq_nil_iff.2, List.append_nil]
    intro a ha
    simp [expected_rest_no_wait env self inst w a ha]
  refine ⟨hfilter, hbefore, ?_, ?_, ?_⟩
  · rw [execute_calls_eq]
    simp [expected_calls]
  · intro e he
    have hmem : call.wait e ∈ execute_calls env self events inst w := by
      have : call.wait e ∈ (execute_calls env self events inst w).filter call.is_wait := by
        rw [hfilter]; exact List.mem_map.2 ⟨e, he, rfl⟩
      exact (List.mem_filter.1 this).1
    obtain ⟨i, hi⟩ := List.mem_iff_getElem?.1 hmem
    exact ⟨i, hi, fun j c hj hc => hbefore i j _ c hi hj rfl hc⟩
  · intro ev hev
    rw [execute_impl_out] at hev
    rw [execute_calls_eq]
    cases hok : (self.eval_result env inst w).1 with
    | true =>
      simp only [hok, if_true, outcome.returned.injEq] at hev
      subst hev
      simp [expected_calls, completion_calls, hok]
    | false => simp [hok] at hev

/-! ## Evaluation failure -/

theorem mentions_failure_message (env : backend) (inst : range_inst) :
    mentions (failure_message env inst) inst.id := by
  refine ⟨env.assert_header.data ++ "[GPU] Couldn\x27t execute range primitive with id ".data,
    [], ?_⟩
  simp [failure_message, OPENVINO_ASSERT_message, String.join, String.data_append]

theorem evaluate_mem_expected (env : backend) (self : range_impl) (events : List Nat)
    (inst : range_inst) (w : world) (r : Nat) (t : element_type)
    (outs ins : List host_tensor) (ok : Bool)
    (h : call.evaluate r t outs ins ok ∈ expected_calls env self events inst w) :
    r = self.op_ref w ∧ t = self.op_type env inst w ∧ outs = inst.output_tensors
    ∧ ins = inst.input_tensors ∧ ok = (self.eval_result env inst w).1 := by
  unfold expected_calls at h
  rcases List.mem_append.1 h with h | h
  · obtain ⟨e, _, he⟩ := List.mem_map.1 h
    cases he
  · rcases mem_expected_rest env self inst w _ h with h | h | ⟨m, _, h⟩ | h | h | h
    · cases h
    · cases h
    · cases h
    · rcases (mem_construct_calls env self inst w _ h).2 with h | h <;> cases h
    · injection h with h1 h2 h3 h4 h5
      exact ⟨h1, h2, h3, h4, h5⟩
    · rcases mem_completion_calls env self inst w _ h with
        ⟨_, ⟨m, _, h⟩ | h | h | h⟩ | ⟨_, h | h⟩ <;> cases h

/-- C2: when the evaluator returns failure in a call of `range_impl::execute_impl`,
the call ends in a fatal error whose diagnostic contains the id of the instance, no
event is returned, `set` is called on no event, and the completion event created in
the call is still pending afterwards. -/
theorem execute_impl_evaluation_failure (env : backend) (self : range_impl)
    (events : List Nat) (inst : range_inst) (w : world) (r : Nat) (t : element_type)
    (outs ins : List host_tensor)
    (hfail : call.evaluate r t outs ins false ∈ execute_calls env self events inst w) :
    (∃ msg, (self.execute_impl env events inst w).out = .fatal msg
      ∧ mentions msg inst.id
      ∧ call.throw msg ∈ execute_calls env self events inst w)
    ∧ (∀ ev, (self.execute_impl env events inst w).out ≠ .returned ev)
    ∧ (∀ c ∈ execute_calls env self events inst w, c.is_ret = false)
    ∧ (∀ c ∈ execute_calls env self events inst w, c.is_set = false)
    ∧ call.create_user_event inst.stream false w.next_event
        ∈ execute_calls env self events inst w
    ∧ (self.execute_impl env events inst w).world.signaled w.next_event = false := by
  rw [execute_calls_eq] at hfail
  have hok : (self.eval_result env inst w).1 = false :=
    (evaluate_mem_expected env self events inst w r t outs ins false hfail).2.2.2.2.symm
  have hno : ∀ c ∈ execute_calls env self events inst w,
      c.is_ret = false ∧ c.is_set = false := by
    intro c hc
    rw [execute_calls_eq] at hc
    unfold expected_calls at hc
    rcases List.mem_append.1 hc with h | h
    · obtain ⟨e, _, rfl⟩ := List.mem_map.1 h
      exact ⟨rfl, rfl⟩
    · rcases mem_expected_rest env self inst w _ h with h | h | ⟨m, _, h⟩ | h | h | h
      · subst h; exact ⟨rfl, rfl⟩
      · subst h; exact ⟨rfl, rfl⟩
      · subst h; exact ⟨rfl, rfl⟩
      · rcases (mem_construct_calls env self inst w _ h).2 with h | h <;>
          (subst h; exact ⟨rfl, rfl⟩)
      · subst h; exact ⟨rfl, rfl⟩
      · rcases mem_completion_calls env self inst w _ h with ⟨h1, _⟩ | ⟨_, h | h⟩
        · rw [hok] at h1; cases h1
        · subst h; exact ⟨rfl, rfl⟩
        · subst h; exact ⟨rfl, rfl⟩
  refine ⟨⟨failure_message env inst, ?_, mentions_failure_message env inst, ?_⟩, ?_,
    fun c hc => (hno c hc).1, fun c hc => (hno c hc).2, ?_, ?_⟩
  · rw [execute_impl_out, hok]; simp
  · rw [execute_calls_eq]; simp [expected_calls, completion_calls, hok]
  · intro ev; rw [execute_impl_out, hok]; simp
  · rw [execute_calls_eq]; simp [expected_calls]
  · rw [execute_impl_fail env self events inst w hok]; simp

theorem execute_impl_evaluation_failure_witness :
    call.evaluate 0 .i32 [⟨out_i32, 20⟩] [⟨scalar_i32, 10⟩] false
      ∈ execute_calls failing_backend range_impl.default [3, 4] inst_one_dep w0
    ∧ (∃ msg, (range_impl.default.execute_impl failing_backend [3, 4] inst_one_dep w0).out
          = .fatal msg
        ∧ mentions msg "range:0"
        ∧ call.throw msg ∈ execute_calls failing_backend range_impl.default [3, 4] inst_one_dep w0)
    ∧ (range_impl.default.execute_impl failing_backend [3, 4] inst_one_dep w0).world.signaled 0
        = false :=
  have h := execute_impl_evaluation_failure failing_backend range_impl.default [3, 4]
    inst_one_dep w0 0 .i32 [⟨out_i32, 20⟩] [⟨scalar_i32, 10⟩] (by decide)
  ⟨by decide, h.1, h.2.2.2.2.2⟩

/-! ## Filters of the trace of one call -/

theorem construct_calls_some (env : backend) (kn : String) (r : Nat) (inst : range_inst)
    (w : world) : (range_impl.mk kn (some r)).construct_calls env inst w = [] := rfl

theorem construct_calls_none (env : backend) (kn : String) (inst : range_inst) (w : world) :
    (range_impl.mk kn none).construct_calls env inst w
      = [.make_shared w.next_op,
         .set_output_type w.next_op
           (env.data_type_to_element_type inst.impl_params.output_layout.data_type)] := rfl

theorem filter_make_shared (env : backend) (self : range_impl) (events : List Nat)
    (inst : range_inst) (w : world) :
    (execute_calls env self events inst w).filter call.is_make_shared
      = match self.op with
        | some _ => []
        | none => [.make_shared w.next_op] := by
  rw [execute_calls_eq]
  rcases self with ⟨kn, op⟩
  cases hok : ((range_impl.mk kn op).eval_result env inst w).1 <;> cases op <;>
    simp [expected_calls, completion_calls, hok, construct_calls_some, construct_calls_none,
      List.filter_cons, List.filter_map, Function.comp_def, call.is_make_shared]

theorem filter_set_output_type (env : backend) (self : range_impl) (events : List Nat)
    (inst : range_inst) (w : world) :
    (execute_calls env self events inst w).filter call.is_set_output_type
      = match self.op with
        | some _ => []
        | none => [.set_output_type w.next_op
            (env.data_type_to_element_type inst.impl_params.output_layout.data_type)] := by
  rw [execute_calls_eq]
  rcases self with ⟨kn, op⟩
  cases hok : ((range_impl.mk kn op).eval_result env inst w).1 <;> cases op <;>
    simp [expected_calls, completion_calls, hok, construct_calls_some, construct_calls_none,
      List.filter_cons, List.filter_map, Function.comp_def, call.is_set_output_type]

theorem filter_evaluate (env : backend) (self : range_impl) (events : List Nat)
    (inst : range_inst) (w : world) :
    (execute_calls env self events inst w).filter call.is_evaluate
      = [.evaluate (self.op_ref w) (self.op_type env inst w) inst.output_tensors
          inst.input_tensors (self.eval_result env inst w).1] := by
  rw [execute_calls_eq]
  rcases self with ⟨kn, op⟩
  cases hok : ((range_impl.mk kn op).eval_result env inst w).1 <;> cases op <;>
    simp [expected_calls, completion_calls, hok, construct_calls_some, construct_calls_none,
      List.filter_cons, List.filter_map, Function.comp_def, call.is_evaluate]

theorem filter_lock (env : backend) (self : range_impl) (events : List Nat)
    (inst : range_inst) (w : world) :
    (execute_calls env self events inst w).filter call.is_lock
      = inst.dependencies.map (fun m => call.lock m.id inst.stream .read) := by
  rw [execute_calls_eq]
  rcases self with ⟨kn, op⟩
  cases hok : ((range_impl.mk kn op).eval_result env inst w).1 <;> cases op <;>
    simp [expected_calls, completion_calls, hok, construct_calls_some, construct_calls_none,
      List.filter_cons, List.filter_map, Function.comp_def, call.is_lock]

theorem filter_unlock (env : backend) (self : range_impl) (events : List Nat)
    (inst : range_inst) (w : world) :
    (execute_calls env self events inst w).filter call.is_unlock
      = if (self.eval_result env inst w).1 then
          inst.dependencies.map (fun m => call.unlock m.id inst.stream)
        else [] := by
  rw [execute_calls_eq]
  rcases self with ⟨kn, op⟩
  cases hok : ((range_impl.mk kn op).eval_result env inst w).1 <;> cases op <;>
    simp [expected_calls, completion_calls, hok, construct_calls_some, construct_calls_none,
      List.filter_cons, List.filter_map, Function.comp_def, call.is_unlock]

theorem filter_mem_lock_ctor (env : backend) (self : range_impl) (events : List Nat)
    (inst : range_inst) (w : world) :
    (execute_calls env self events inst w).filter call.is_mem_lock_ctor
      = [.mem_lock_ctor inst.output_memory_ptr.id inst.stream .read] := by
  rw [execute_calls_eq]
  rcases self with ⟨kn, op⟩
  cases hok : ((range_impl.mk kn op).eval_result env inst w).1 <;> cases op <;>
    simp [expected_calls, completion_calls, hok, construct_calls_some, construct_calls_none,
      List.filter_cons, List.filter_map, Function.comp_def, call.is_mem_lock_ctor]

theorem filter_mem_lock_dtor (env : backend) (self : range_impl) (events : List Nat)
    (inst : range_inst) (w : world) :
    (execute_calls env self events inst w).filter call.is_mem_lock_dtor
      = [.mem_lock_dtor inst.output_memory_ptr.id inst.stream] := by
  rw [execute_calls_eq]
  rcases self with ⟨kn, op⟩
  cases hok : ((range_impl.mk kn op).eval_result env inst w).1 <;> cases op <;>
    simp [expected_calls, completion_calls, hok, construct_calls_some, construct_calls_none,
      List.filter_cons, List.filter_map, Function.comp_def, call.is_mem_lock_dtor]

theorem filter_set (env : backend) (self : range_impl) (events : List Nat)
    (inst : range_inst) (w : world) :
    (execute_calls env self events inst w).filter call.is_set
      = if (self.eval_result env inst w).1 then [.set w.next_event] else [] := by
  rw [execute_calls_eq]
  rcases self with ⟨kn, op⟩
  cases hok : ((range_impl.mk kn op).eval_result env inst w).1 <;> cases op <;>
    simp [expected_calls, completion_calls, hok, construct_calls_some, construct_calls_none,
      List.filter_cons, List.filter_map, Function.comp_def, call.is_set]

theorem filter_create (env : backend) (self : range_impl) (events : List Nat)
    (inst : range_inst) (w : world) :
    (execute_calls env self events inst w).filter call.is_create
      = [.create_user_event inst.stream false w.next_event] := by
  rw [execute_calls_eq]
  rcases self with ⟨kn, op⟩
  cases hok : ((range_impl.mk kn op).eval_result env inst w).1 <;> cases op <;>
    simp [expected_calls, completion_calls, hok, construct_calls_some, construct_calls_none,
      List.filter_cons, List.filter_map, Function.comp_def, call.is_create]

/-! ## The world after one call -/

theorem execute_impl_op_output_type (env : backend) (self : range_impl) (events : List Nat)
    (inst : range_inst) (w : world) :
    (self.execute_impl env events inst w).world.op_output_type
      = fun r =>
          match self.op with
          | some _ => w.op_output_type r
          | none => if r = w.next_op then self.op_type env inst w else w.op_output_type r := by
  cases hok : (self.eval_result env inst w).1 with
  | true => rw [execute_impl_ok env self events inst w hok]
  | false => rw [execute_impl_fail env self events inst w hok]

theorem execute_impl_buffer (env : backend) (self : range_impl) (events : List Nat)
    (inst : range_inst) (w : world) :
    (self.execute_impl env events inst w).world.buffer
      = fun i =>
          if i = inst.output_memory_ptr.id then (self.eval_result env inst w).2
          else w.buffer i := by
  cases hok : (self.eval_result env inst w).1 with
  | true => rw [execute_impl_ok env self events inst w hok]
  | false => rw [execute_impl_fail env self events inst w hok]

theorem execute_impl_next_op (env : backend) (self : range_impl) (events : List Nat)
    (inst : range_inst) (w : world) :
    (self.execute_impl env events inst w).world.next_op
      = match self.op with
        | some _ => w.next_op
        | none => w.next_op + 1 := by
  cases hok : (self.eval_result env inst w).1 with
  | true => rw [execute_impl_ok env self events inst w hok]
  | false => rw [execute_impl_fail env self events inst w hok]

/-- The evaluator object used by a call keeps, after the call, the output type it
was used with. -/
theorem execute_impl_op_type_after (env : backend) (self : range_impl) (events : List Nat)
    (inst : range_inst) (w : world) :
    (self.execute_impl env events inst w).world.op_output_type (self.op_ref w)
      = self.op_type env inst w := by
  rw [execute_impl_op_output_type]
  rcases self with ⟨kn, op⟩
  cases op <;> simp [range_impl.op_ref, range_impl.op_type]

/-! ## Lazy construction -/

/-- C4: lazy construction is idempotent. Of two consecutive calls of `execute_impl`
on one instance the second constructs and configures nothing and evaluates with the
evaluator object the first call used; over both calls at most one evaluator is
constructed and configured, namely in the first call and only when `op` was empty
there; and the second call leaves the configured output type of that evaluator as
it was. This holds for all outcomes and data types, in particular for two
successful calls with the same output data type. -/
theorem lazy_construction_idempotent (env : backend) (self : range_impl)
    (events1 events2 : List Nat) (inst1 inst2 : range_inst) (w : world) :
    (execute_calls env (self.execute_impl env events1 inst1 w).impl events2 inst2
        (self.execute_impl env events1 inst1 w).world).filter call.is_make_shared = []
    ∧ (execute_calls env (self.execute_impl env events1 inst1 w).impl events2 inst2
        (self.execute_impl env events1 inst1 w).world).filter call.is_set_output_type = []
    ∧ (∃ r t1 ok1 t2 ok2,
        (self.execute_impl env events1 inst1 w).impl.op = some r
        ∧ ((self.execute_impl env events1 inst1 w).impl.execute_impl env events2 inst2
            (self.execute_impl env events1 inst1 w).world).impl.op = some r
        ∧ (execute_calls env self events1 inst1 w).filter call.is_evaluate
            = [.evaluate r t1 inst1.output_tensors inst1.input_tensors ok1]
        ∧ (execute_calls env (self.execute_impl env events1 inst1 w).impl events2 inst2
            (self.execute_impl env events1 inst1 w).world).filter call.is_evaluate
            = [.evaluate r t2 inst2.output_tensors inst2.input_tensors ok2]
        ∧ t2 = t1
        ∧ ((self.execute_impl env events1 inst1 w).impl.execute_impl env events2 inst2
            (self.execute_impl env events1 inst1 w).world).world.op_output_type r = t1)
    ∧ (execute_calls env self events1 inst1 w
        ++ execute_calls env (self.execute_impl env events1 inst1 w).impl events2 inst2
            (self.execute_impl env events1 inst1 w).world).countP call.is_make_shared
        = (match self.op with
           | some _ => 0
           | none => 1)
    ∧ (execute_calls env self events1 inst1 w
        ++ execute_calls env (self.execute_impl env events1 inst1 w).impl events2 inst2
            (self.execute_impl env events1 inst1 w).world).countP call.is_set_output_type
        = (match self.op with
           | some _ => 0
           | none => 1)
    ∧ (execute_calls env self events1 inst1 w
        ++ execute_calls env (self.execute_impl env events1 inst1 w).impl events2 inst2
            (self.execute_impl env events1 inst1 w).world).countP call.is_make_shared ≤ 1 := by
  have himpl := execute_impl_impl env self events1 inst1 w
  have hop : (self.execute_impl env events1 inst1 w).impl.op = some (self.op_ref w) := by
    rw [himpl]
  have hms : (execute_calls env (self.execute_impl env events1 inst1 w).impl events2 inst2
      (self.execute_impl env events1 inst1 w).world).filter call.is_make_shared = [] := by
    rw [filter_make_shared, hop]
  have hso : (execute_calls env (self.execute_impl env events1 inst1 w).impl events2 inst2
      (self.execute_impl env events1 inst1 w).world).filter call.is_set_output_type = [] := by
    rw [filter_set_output_type, hop]
  have hty : (self.execute_impl env events1 inst1 w).impl.op_type env inst2
      (self.execute_impl env events1 inst1 w).world = self.op_type env inst1 w := by
    rw [← execute_impl_op_type_after env self events1 inst1 w]
    simp [range_impl.op_type, hop]
  have href : (self.execute_impl env events1 inst1 w).impl.op_ref
      (self.execute_impl env events1 inst1 w).world = self.op_ref w := by
    simp [range_impl.op_ref, hop]
  have hc1 : (execute_calls env self events1 inst1 w).countP call.is_make_shared
      = (match self.op with
         | some _ => 0
         | none => 1) := by
    rw [List.countP_eq_length_filter, filter_make_shared]
    cases self.op <;> rfl
  have hc2 : (execute_calls env self events1 inst1 w).countP call.is_set_output_type
      = (match self.op with
         | some _ => 0
         | none => 1) := by
    rw [List.countP_eq_length_filter, filter_set_output_type]
    cases self.op <;> rfl
  refine ⟨hms, hso, ⟨self.op_ref w, self.op_type env inst1 w,
    (self.eval_result env inst1 w).1, self.op_type env inst1 w,
    ((self.execute_impl env events1 inst1 w).impl.eval_result env inst2
      (self.execute_impl env events1 inst1 w).world).1,
    hop, ?_, filter_evaluate env self events1 inst1 w, ?_, rfl, ?_⟩, ?_, ?_, ?_⟩
  · rw [execute_impl_impl, href]
  · rw [filter_evaluate, href, hty]
  · have h := execute_impl_op_type_after env (self.execute_impl env events1 inst1 w).impl
      events2 inst2 (self.execute_impl env events1 inst1 w).world
    rw [href, hty] at h
    exact h
  · rw [List.countP_append, hc1, List.countP_eq_length_filter, hms]; rfl
  · rw [List.countP_append, hc2, List.countP_eq_length_filter, hso]; rfl
  · rw [List.countP_append, hc1, List.countP_eq_length_filter, hms]
    cases self.op <;> simp

theorem lazy_construction_idempotent_witness :
    (range_impl.default.execute_impl ref_backend [] inst_one_dep w0).out = .returned 0
    ∧ (built_i32.impl.execute_impl ref_backend [0] inst_one_dep built_i32.world).out = .returned 1
    ∧ (execute_calls ref_backend built_i32.impl [0] inst_one_dep built_i32.world).filter
        call.is_make_shared = []
    ∧ (execute_calls ref_backend range_impl.default [] inst_one_dep w0
        ++ execute_calls ref_backend built_i32.impl [0] inst_one_dep built_i32.world).countP
          call.is_make_shared = 1 :=
  have h := lazy_construction_idempotent ref_backend range_impl.default [] [0] inst_one_dep
    inst_one_dep w0
  ⟨by decide, by decide, h.1, h.2.2.2.1⟩

/-! ## Cloning -/

/-- C3, refuted as stated: the clone of an instance whose evaluator has been built
by an execute call is not empty. It points at the same evaluator object 0 as the
original, its first execute constructs nothing, and after `set_output_type` on the
clone's evaluator the original evaluates with the new type. -/
theorem clone_shares_built_evaluator :
    built_i32.impl.op = some 0
    ∧ built_i32.impl.clone.op = some 0
    ∧ built_i32.impl.clone.op ≠ none
    ∧ (execute_calls ref_backend built_i32.impl.clone [] inst_one_dep built_i32.world).filter
        call.is_make_shared = []
    ∧ (execute_calls ref_backend built_i32.impl [] inst_one_dep built_i32.world).filter
        call.is_evaluate
        = [.evaluate 0 .i32 [⟨out_i32, 20⟩] [⟨scalar_i32, 10⟩] true]
    ∧ (execute_calls ref_backend built_i32.impl [] inst_one_dep
        (set_output_type built_i32.world 0 .f32)).filter call.is_evaluate
        = [.evaluate 0 .f32 [⟨out_i32, 20⟩] [⟨scalar_i32, 10⟩] true] := by
  decide

/-- C3, amended: `clone` is the member-wise copy, so the clone's `op` equals the
original's. A clone of an instance with an empty evaluator is empty, constructs a
fresh evaluator on its first execute, and the original afterwards constructs a
different one. A clone of an instance whose evaluator is built points at the same
evaluator object: its first execute constructs nothing and keeps that object, and a
`set_output_type` on the shared object shows in the next evaluation of the
original. -/
theorem clone_copies_evaluator_pointer (env : backend) (self : range_impl) (kn : String)
    (r : Nat) (t : element_type) (events1 events2 : List Nat) (inst1 inst2 : range_inst)
    (w : world) :
    self.clone = self
    ∧ (range_impl.mk kn none).clone.op = none
    ∧ ((range_impl.mk kn none).clone.execute_impl env events1 inst1 w).impl.op
        = some w.next_op
    ∧ (execute_calls env (range_impl.mk kn none).clone events1 inst1 w).filter
        call.is_make_shared = [.make_shared w.next_op]
    ∧ ((range_impl.mk kn none).execute_impl env events2 inst2
        ((range_impl.mk kn none).clone.execute_impl env events1 inst1 w).world).impl.op
        = some (w.next_op + 1)
    ∧ (range_impl.mk kn (some r)).clone.op = some r
    ∧ (execute_calls env (range_impl.mk kn (some r)).clone events1 inst1 w).filter
        call.is_make_shared = []
    ∧ ((range_impl.mk kn (some r)).clone.execute_impl env events1 inst1 w).impl.op = some r
    ∧ (∃ ok, (execute_calls env (range_impl.mk kn (some r)) events2 inst2
          (set_output_type w r t)).filter call.is_evaluate
        = [.evaluate r t inst2.output_tensors inst2.input_tensors ok]) := by
  refine ⟨rfl, rfl, ?_, ?_, ?_, rfl, ?_, ?_,
    ⟨((range_impl.mk kn (some r)).eval_result env inst2 (set_output_type w r t)).1, ?_⟩⟩
  · rw [execute_impl_impl]; rfl
  · rw [filter_make_shared]; rfl
  · rw [execute_impl_impl]
    simp only [range_impl.op_ref, Option.getD_none]
    rw [execute_impl_next_op]
    rfl
  · rw [filter_make_shared]; rfl
  · rw [execute_impl_impl]; rfl
  · rw [filter_evaluate]
    simp [range_impl.op_ref, range_impl.op_type, set_output_type]

theorem clone_copies_evaluator_pointer_witness :
    built_i32.impl.clone = built_i32.impl
    ∧ (range_impl.mk "range_cpu_impl" (some 0)).clone.op = some 0
    ∧ (execute_calls ref_backend (range_impl.mk "range_cpu_impl" (some 0)).clone []
        inst_one_dep built_i32.world).filter call.is_make_shared = [] :=
  have h := clone_copies_evaluator_pointer ref_backend built_i32.impl "range_cpu_impl" 0 .f32
    [] [] inst_one_dep inst_one_dep built_i32.world
  ⟨h.1, h.2.2.2.2.2.1, h.2.2.2.2.2.2.1⟩

/-! ## The dispatch-data hook -/

/-- C7, refuted as stated: the evaluator is built for int32; after
`update_dispatch_data` with parameters whose output data type is f32, the next
`execute_impl` (on the instance with the f32 output) still evaluates with the
evaluator configured for int32, and constructs nothing. -/
theorem update_dispatch_data_leaves_stale_type :
    built_i32.world.op_output_type 0 = .i32
    ∧ ref_backend.data_type_to_element_type out_f32.data_type = .f32
    ∧ (execute_calls ref_backend (built_i32.impl.update_dispatch_data ⟨out_f32⟩) []
        inst_one_dep_f32 built_i32.world).filter call.is_evaluate
        = [.evaluate 0 .i32 [⟨out_f32, 20⟩] [⟨scalar_i32, 10⟩] true]
    ∧ (execute_calls ref_backend (built_i32.impl.update_dispatch_data ⟨out_f32⟩) []
        inst_one_dep_f32 built_i32.world).filter call.is_set_output_type = [] := by
  decide

/-- C7, amended: the cached evaluator stays valid across execute calls, and
`update_dispatch_data` neither invalidates nor rebuilds it. After the first
execute of an instance built the evaluator for the output data type of `inst1`,
`update_dispatch_data` with any parameters returns the implementation unchanged,
and the next `execute_impl`, on any instance, constructs and configures nothing and
evaluates with the same evaluator, still configured for the type of `inst1`. -/
theorem update_dispatch_data_keeps_evaluator (env : backend) (self : range_impl)
    (kn : String) (p : kernel_impl_params) (events1 events2 : List Nat)
    (inst1 inst2 : range_inst) (w : world) :
    self.update_dispatch_data p = self
    ∧ ((range_impl.mk kn none).execute_impl env events1 inst1 w).impl.op = some w.next_op
    ∧ ((range_impl.mk kn none).execute_impl env events1 inst1 w).world.op_output_type w.next_op
        = env.data_type_to_element_type inst1.impl_params.output_layout.data_type
    ∧ (execute_calls env
        (((range_impl.mk kn none).execute_impl env events1 inst1 w).impl.update_dispatch_data p)
        events2 inst2 ((range_impl.mk kn none).execute_impl env events1 inst1 w).world).filter
        call.is_make_shared = []
    ∧ (execute_calls env
        (((range_impl.mk kn none).execute_impl env events1 inst1 w).impl.update_dispatch_data p)
        events2 inst2 ((range_impl.mk kn none).execute_impl env events1 inst1 w).world).filter
        call.is_set_output_type = []
    ∧ (∃ ok, (execute_calls env
        (((range_impl.mk kn none).execute_impl env events1 inst1 w).impl.update_dispatch_data p)
        events2 inst2 ((range_impl.mk kn none).execute_impl env events1 inst1 w).world).filter
        call.is_evaluate
        = [.evaluate w.next_op
            (env.data_type_to_element_type inst1.impl_params.output_layout.data_type)
            inst2.output_tensors inst2.input_tensors ok]) := by
  have hop : ((range_impl.mk kn none).execute_impl env events1 inst1 w).impl.op
      = some w.next_op := by
    rw [execute_impl_impl]; rfl
  have hty : ((range_impl.mk kn none).execute_impl env events1 inst1 w).world.op_output_type
      w.next_op = env.data_type_to_element_type inst1.impl_params.output_layout.data_type :=
    execute_impl_op_type_after env (range_impl.mk kn none) events1 inst1 w
  refine ⟨rfl, hop, hty, ?_, ?_,
    ⟨((((range_impl.mk kn none).execute_impl env events1 inst1 w).impl.update_dispatch_data
        p).eval_result env inst2
        ((range_impl.mk kn none).execute_impl env events1 inst1 w).world).1, ?_⟩⟩
  · rw [filter_make_shared]
    simp only [range_impl.update_dispatch_data, hop]
  · rw [filter_set_output_type]
    simp only [range_impl.update_dispatch_data, hop]
  · rw [filter_evaluate]
    simp [range_impl.update_dispatch_data, range_impl.op_ref, range_impl.op_type, hop, hty]

theorem update_dispatch_data_keeps_evaluator_witness :
    built_i32.impl.update_dispatch_data ⟨out_f32⟩ = built_i32.impl
    ∧ (range_impl.default.execute_impl ref_backend [] inst_one_dep w0).world.op_output_type 0
        = .i32
    ∧ (execute_calls ref_backend
        ((range_impl.default.execute_impl ref_backend [] inst_one_dep w0).impl.update_dispatch_data
          ⟨out_f32⟩)
        [] inst_one_dep_f32
        (range_impl.default.execute_impl ref_backend [] inst_one_dep w0).world).filter
        call.is_set_output_type = [] :=
  have h := update_dispatch_data_keeps_evaluator ref_backend built_i32.impl "range_cpu_impl"
    ⟨out_f32⟩ [] [] inst_one_dep inst_one_dep_f32 w0
  ⟨h.1, h.2.2.1, h.2.2.2.2.1⟩

/-! ## The registry after attach_range_impl -/

theorem find_formats {F : Type} (kind : primitive_kind) (impl : impl_types)
    (shape : shape_types) (t : data_types) (factory : F) (formats : List format)
    (key : impl_key) :
    (formats.map fun f => (impl_key.mk kind impl shape t f, factory)).find?
        (fun e => decide (e.1 = key))
      = if key.kind = kind ∧ key.impl = impl ∧ key.shape = shape ∧ key.dt = t
            ∧ key.fmt ∈ formats
        then some (key, factory) else none := by
  induction formats with
  | nil => simp
  | cons f fs ih =>
    rw [List.map_cons, List.find?_cons]
    by_cases h : impl_key.mk kind impl shape t f = key
    · subst h; simp
    · simp only [h, decide_False, ih, List.mem_cons]
      have hne : ¬ (key.kind = kind ∧ key.impl = impl ∧ key.shape = shape ∧ key.dt = t
          ∧ key.fmt = f) := by
        rintro ⟨h1, h2, h3, h4, h5⟩
        apply h
        rcases key with ⟨a, b, c, d, e⟩
        simp only at h1 h2 h3 h4 h5
        subst h1 h2 h3 h4 h5
        rfl
      by_cases hc : key.kind = kind ∧ key.impl = impl ∧ key.shape = shape ∧ key.dt = t
          ∧ key.fmt ∈ fs
      · have hd : key.kind = kind ∧ key.impl = impl ∧ key.shape = shape ∧ key.dt = t
            ∧ (key.fmt = f ∨ key.fmt ∈ fs) :=
          ⟨hc.1, hc.2.1, hc.2.2.1, hc.2.2.2.1, Or.inr hc.2.2.2.2⟩
        rw [if_pos hc, if_pos hd]
      · have hd : ¬ (key.kind = kind ∧ key.impl = impl ∧ key.shape = shape ∧ key.dt = t
            ∧ (key.fmt = f ∨ key.fmt ∈ fs)) := by
          rintro ⟨h1, h2, h3, h4, h5 | h5⟩
          · exact hne ⟨h1, h2, h3, h4, h5⟩
          · exact hc ⟨h1, h2, h3, h4, h5⟩
        rw [if_neg hc, if_neg hd]

theorem find_types {F : Type} (kind : primitive_kind) (impl : impl_types)
    (shape : shape_types) (factory : F) (types : List data_types) (formats : List format)
    (key : impl_key) :
    (types.flatMap fun t => formats.map fun f => (impl_key.mk kind impl shape t f, factory)).find?
        (fun e => decide (e.1 = key))
      = if key.kind = kind ∧ key.impl = impl ∧ key.shape = shape ∧ key.dt ∈ types
            ∧ key.fmt ∈ formats
        then some (key, factory) else none := by
  induction types with
  | nil => simp
  | cons t ts ih =>
    rw [List.flatMap_cons, List.find?_append, find_formats, ih]
    by_cases h1 : key.kind = kind ∧ key.impl = impl ∧ key.shape = shape ∧ key.dt = t
        ∧ key.fmt ∈ formats
    · have hc : key.kind = kind ∧ key.impl = impl ∧ key.shape = shape ∧ key.dt ∈ t :: ts
          ∧ key.fmt ∈ formats :=
        ⟨h1.1, h1.2.1, h1.2.2.1, List.mem_cons.2 (Or.inl h1.2.2.2.1), h1.2.2.2.2⟩
      rw [if_pos h1, if_pos hc]
      rfl
    · rw [if_neg h1]
      simp only [Option.none_or]
      by_cases h2 : key.kind = kind ∧ key.impl = impl ∧ key.shape = shape ∧ key.dt ∈ ts
          ∧ key.fmt ∈ formats
      · have hc : key.kind = kind ∧ key.impl = impl ∧ key.shape = shape ∧ key.dt ∈ t :: ts
            ∧ key.fmt ∈ formats :=
          ⟨h2.1, h2.2.1, h2.2.2.1, List.mem_cons.2 (Or.inr h2.2.2.2.1), h2.2.2.2.2⟩
        rw [if_pos h2, if_pos hc]
      · have hc : ¬ (key.kind = kind ∧ key.impl = impl ∧ key.shape = shape ∧ key.dt ∈ t :: ts
            ∧ key.fmt ∈ formats) := by
          rintro ⟨a, b, c, d, e⟩
          rcases List.mem_cons.1 d with d | d
          · exact h1 ⟨a, b, c, d, e⟩
          · exact h2 ⟨a, b, c, d, e⟩
        rw [if_neg h2, if_neg hc]

theorem lookup_add {F : Type} (reg : implementation_map F) (kind : primitive_kind)
    (impl : impl_types) (shape : shape_types) (factory : F)
    (types : List data_types) (formats : List format)
    (k : primitive_kind) (i : impl_types) (s : shape_types) (d : data_types) (m : format) :
    implementation_map.lookup (implementation_map.add reg kind impl shape factory types formats)
        k i s d m
      = if k = kind ∧ i = impl ∧ s = shape ∧ d ∈ types ∧ m ∈ formats then .ok factory
        else implementation_map.lookup reg k i s d m := by
  unfold implementation_map.lookup implementation_map.add
  rw [List.find?_append, find_types]
  by_cases h : k = kind ∧ i = impl ∧ s = shape ∧ d ∈ types ∧ m ∈ formats
  · rw [if_pos h, if_pos h]; rfl
  · rw [if_neg h, if_neg h]; rfl
/-- C5: after `attach_range_impl` ran on the empty registry, the lookup for operator
kind range and backend cpu returns `range_impl::create` exactly when the type is one
of f32, f16, i32, i64, i8, u8 and the format one of bfyx, bfzyx, bfwzyx, in both
shape modes, and NotFound for every other pair; the registry then holds 36 entries
with 36 different keys, all of kind range and backend cpu. -/
theorem attach_range_impl_lookup (shape : shape_types) (dt : data_types) (fmt : format) :
    implementation_map.lookup (attach_range_impl []) .range .cpu shape dt fmt
      = (if dt ∈ [data_types.f32, .f16, .i32, .i64, .i8, .u8]
            ∧ fmt ∈ [format.bfyx, .bfzyx, .bfwzyx]
         then .ok range_impl.create else .error .NotFound)
    ∧ (attach_range_impl []).length = 36
    ∧ ((attach_range_impl []).map Prod.fst).Nodup
    ∧ ((attach_range_impl []).all fun e =>
        decide (e.1.kind = .range) && decide (e.1.impl = .cpu)) = true := by
  refine ⟨?_, by decide, by decide, by decide⟩
  have hempty : implementation_map.lookup ([] : implementation_map range_factory) .range .cpu
      shape dt fmt = .error .NotFound := rfl
  unfold attach_range_impl
  simp only [lookup_add, hempty, attach_range_types, attach_range_formats]
  by_cases h : dt ∈ [data_types.f32, .f16, .i32, .i64, .i8, .u8]
      ∧ fmt ∈ [format.bfyx, .bfzyx, .bfwzyx]
  · cases shape <;> simp [h.1, h.2]
  · rw [if_neg h, if_neg (fun hc => h hc.2.2.2), if_neg (fun hc => h hc.2.2.2)]

theorem attach_range_impl_lookup_witness :
    implementation_map.lookup (attach_range_impl []) .range .cpu .dynamic_shape .i64 .bfzyx
      = .ok range_impl.create
    ∧ implementation_map.lookup (attach_range_impl []) .range .cpu .static_shape .i16 .bfyx
      = .error .NotFound
    ∧ implementation_map.lookup (attach_range_impl []) .range .cpu .static_shape .f32
        (.other 0) = .error .NotFound :=
  ⟨(attach_range_impl_lookup .dynamic_shape .i64 .bfzyx).1,
   (attach_range_impl_lookup .static_shape .i16 .bfyx).1,
   (attach_range_impl_lookup .static_shape .f32 (.other 0)).1⟩

/-! ## Lock modes -/

/-- C6, the code at the failing input: in the call of the end-to-end scenario the
dependency is locked in read mode, and the scoped lock on the output memory 20 is
taken in read mode too, which does not permit writing, although the evaluator
writes the five elements of the result through it. -/
theorem output_lock_is_read_only :
    (execute_calls ref_backend range_impl.default [] inst_one_dep w0).filter call.is_lock
      = [.lock 10 7 .read]
    ∧ (execute_calls ref_backend range_impl.default [] inst_one_dep w0).filter
        call.is_mem_lock_ctor = [.mem_lock_ctor 20 7 .read]
    ∧ mem_lock_type.read.permits_write = false
    ∧ w0.buffer 20 = []
    ∧ (range_impl.default.execute_impl ref_backend [] inst_one_dep w0).world.buffer 20
        = [0, 1, 2, 3, 4] := by
  decide

/-! ## Order of the calls -/

theorem filter_ret (env : backend) (self : range_impl) (events : List Nat)
    (inst : range_inst) (w : world) :
    (execute_calls env self events inst w).filter call.is_ret
      = if (self.eval_result env inst w).1 then [.ret w.next_event] else [] := by
  rw [execute_calls_eq]
  rcases self with ⟨kn, op⟩
  cases hok : ((range_impl.mk kn op).eval_result env inst w).1 <;> cases op <;>
    simp [expected_calls, completion_calls, hok, construct_calls_some, construct_calls_none,
      List.filter_cons, List.filter_map, Function.comp_def, call.is_ret]

theorem filter_throw (env : backend) (self : range_impl) (events : List Nat)
    (inst : range_inst) (w : world) :
    (execute_calls env self events inst w).filter call.is_throw
      = if (self.eval_result env inst w).1 then [] else [.throw (failure_message env inst)] := by
  rw [execute_calls_eq]
  rcases self with ⟨kn, op⟩
  cases hok : ((range_impl.mk kn op).eval_result env inst w).1 <;> cases op <;>
    simp [expected_calls, completion_calls, hok, construct_calls_some, construct_calls_none,
      List.filter_cons, List.filter_map, Function.comp_def, call.is_throw]

theorem sorted_from_nil (k : Nat) : sorted_from k [] :=
  ⟨List.Pairwise.nil, fun _ h => by cases h⟩

theorem sorted_from_mono (k n : Nat) (l : List call) (hk : k ≤ n) (hl : sorted_from n l) :
    sorted_from k l :=
  ⟨hl.1, fun b hb => Nat.le_trans hk (hl.2 b hb)⟩

theorem sorted_from_cons (k n : Nat) (a : call) (l : List call) (ha : a.phase = n)
    (hk : k ≤ n) (hl : sorted_from n l) : sorted_from k (a :: l) := by
  refine ⟨List.Pairwise.cons (fun b hb => ?_) hl.1, fun b hb => ?_⟩
  · rw [ha]; exact hl.2 b hb
  · rcases List.mem_cons.1 hb with rfl | hb
    · rw [ha]; exact hk
    · exact Nat.le_trans hk (hl.2 b hb)

theorem sorted_from_map_append (α : Type) (k n : Nat) (f : α → call) (xs : List α)
    (l : List call) (hf : ∀ x, (f x).phase = n) (hk : k ≤ n) (hl : sorted_from n l) :
    sorted_from k (xs.map f ++ l) := by
  induction xs with
  | nil => exact ⟨hl.1, fun b hb => Nat.le_trans hk (hl.2 b hb)⟩
  | cons x xs ih =>
    have ih2 : sorted_from n (xs.map f ++ l) :=
      ⟨ih.1, fun b hb => by
        rcases List.mem_append.1 hb with hb | hb
        · obtain ⟨y, _, rfl⟩ := List.mem_map.1 hb
          rw [hf y]
        · exact hl.2 b hb⟩
    exact sorted_from_cons k n (f x) (xs.map f ++ l) (hf x) hk ih2

theorem sorted_from_completion (env : backend) (self : range_impl) (inst : range_inst)
    (w : world) : sorted_from 7 (completion_calls env self inst w) := by
  unfold completion_calls
  cases (self.eval_result env inst w).1 with
  | true =>
    exact sorted_from_map_append memory 7 7 _ _ _ (fun _ => rfl) (Nat.le_refl 7)
      (sorted_from_cons 7 8 _ _ rfl (by decide)
        (sorted_from_cons 8 9 _ _ rfl (by decide)
          (sorted_from_cons 9 10 _ _ rfl (by decide) (sorted_from_nil 10))))
  | false =>
    exact sorted_from_cons 7 7 _ _ rfl (Nat.le_refl 7)
      (sorted_from_cons 7 9 _ _ rfl (by decide) (sorted_from_nil 9))

theorem sorted_from_construct (env : backend) (self : range_impl) (inst : range_inst)
    (w : world) (l : List call) (hl : sorted_from 6 l) :
    sorted_from 4 (self.construct_calls env inst w ++ l) := by
  unfold range_impl.construct_calls
  cases self.op with
  | none =>
    exact sorted_from_cons 4 4 _ _ rfl (Nat.le_refl 4)
      (sorted_from_cons 4 5 _ _ rfl (by decide)
        ⟨hl.1, fun b hb => Nat.le_trans (by decide) (hl.2 b hb)⟩)
  | some r => exact ⟨hl.1, fun b hb => Nat.le_trans (by decide) (hl.2 b hb)⟩

/-- The calls of one `execute_impl` are made in the order of their phases. -/
theorem execute_calls_sorted (env : backend) (self : range_impl) (events : List Nat)
    (inst : range_inst) (w : world) :
    (execute_calls env self events inst w).Pairwise (fun a b => a.phase ≤ b.phase) := by
  rw [execute_calls_eq]
  unfold expected_calls
  have h6 := sorted_from_cons 6 6
    (call.evaluate (self.op_ref w) (self.op_type env inst w) inst.output_tensors
      inst.input_tensors (self.eval_result env inst w).1)
    (completion_calls env self inst w) rfl (Nat.le_refl 6)
    (sorted_from_mono 6 7 _ (by decide) (sorted_from_completion env self inst w))
  have h4 := sorted_from_construct env self inst w _ h6
  have h3 := sorted_from_map_append memory 2 3
    (fun m => call.lock m.id inst.stream .read) inst.dependencies _ (fun _ => rfl)
    (by decide) (sorted_from_mono 3 4 _ (by decide) h4)
  have h2 := sorted_from_cons 1 2
    (call.mem_lock_ctor inst.output_memory_ptr.id inst.stream .read) _ rfl (by decide) h3
  have h1 := sorted_from_cons 0 1
    (call.create_user_event inst.stream false w.next_event) _ rfl (by decide) h2
  exact (sorted_from_map_append Nat 0 0 call.wait events _ (fun _ => rfl) (Nat.le_refl 0) h1).1

theorem all_before_of_phase (t : List call) (p q : call → Bool)
    (hs : t.Pairwise (fun a b => a.phase ≤ b.phase))
    (h : ∀ a b, p a = true → q b = true → a.phase < b.phase) :
    all_before p q t := by
  intro i j a b hi hj hpa hqb
  obtain ⟨hil, hia⟩ := List.getElem?_eq_some.1 hi
  obtain ⟨hjl, hjb⟩ := List.getElem?_eq_some.1 hj
  have hlt := h a b hpa hqb
  by_contra hge
  rcases Nat.lt_or_eq_of_le (Nat.le_of_not_lt hge) with hji | hji
  · have := List.pairwise_iff_getElem.1 hs j i hjl hil hji
    rw [hia, hjb] at this
    omega
  · subst hji
    rw [hia] at hjb
    subst hjb
    omega

theorem phase_of_is_evaluate (a : call) (h : a.is_evaluate = true) : a.phase = 6 := by
  cases a <;> first | rfl | cases h

theorem phase_of_is_unlock (a : call) (h : a.is_unlock = true) : a.phase = 7 := by
  cases a <;> first | rfl | cases h

theorem phase_of_is_set (a : call) (h : a.is_set = true) : a.phase = 8 := by
  cases a <;> first | rfl | cases h

theorem phase_of_is_lock (a : call) (h : a.is_lock = true) : a.phase = 3 := by
  cases a <;> first | rfl | cases h

theorem phase_of_is_throw (a : call) (h : a.is_throw = true) : a.phase = 7 := by
  cases a <;> first | rfl | cases h

theorem phase_of_is_dtor (a : call) (h : a.is_mem_lock_dtor = true) : a.phase = 9 := by
  cases a <;> first | rfl | cases h

theorem count_lock_map (deps : List memory) (s i : Nat) :
    (deps.map fun m => call.lock m.id s .read).count (call.lock i s .read)
      = (deps.map memory.id).count i := by
  induction deps with
  | nil => rfl
  | cons m ms ih => simp [List.count_cons, ih]

theorem count_unlock_map (deps : List memory) (s i : Nat) :
    (deps.map fun m => call.unlock m.id s).count (call.unlock i s)
      = (deps.map memory.id).count i := by
  induction deps with
  | nil => rfl
  | cons m ms ih => simp [List.count_cons, ih]

theorem eval_ok_of_returned (env : backend) (self : range_impl) (events : List Nat)
    (inst : range_inst) (w : world) (ev : Nat)
    (hs : (self.execute_impl env events inst w).out = .returned ev) :
    (self.eval_result env inst w).1 = true ∧ ev = w.next_event := by
  rw [execute_impl_out] at hs
  cases hok : (self.eval_result env inst w).1 with
  | true =>
    simp only [hok, if_true, outcome.returned.injEq] at hs
    exact ⟨rfl, hs.symm⟩
  | false => simp [hok] at hs

/-! ## Evaluation into the output buffer -/

/-- C8, refuted as stated: a successful call on an implementation whose cached
evaluator was built for int32, for an instance whose output data type is f32,
returns its event and evaluates once, with the evaluator configured for int32 and
not for the converted output data type f32 of the instance. -/
theorem cached_evaluator_type_differs_from_output_type :
    (built_i32.impl.execute_impl ref_backend [0] inst_one_dep_f32 built_i32.world).out
      = .returned 1
    ∧ (execute_calls ref_backend built_i32.impl [0] inst_one_dep_f32 built_i32.world).filter
        call.is_evaluate
        = [.evaluate 0 .i32 [⟨out_f32, 20⟩] [⟨scalar_i32, 10⟩] true]
    ∧ ref_backend.data_type_to_element_type
        inst_one_dep_f32.impl_params.output_layout.data_type = .f32
    ∧ (execute_calls ref_backend built_i32.impl [0] inst_one_dep_f32 built_i32.world).filter
        call.is_evaluate
        ≠ [.evaluate 0
            (ref_backend.data_type_to_element_type
              inst_one_dep_f32.impl_params.output_layout.data_type)
            [⟨out_f32, 20⟩] [⟨scalar_i32, 10⟩] true] := by
  decide

/-- C8, amended: every successful call of `execute_impl` invokes the evaluator
exactly once, with one host tensor per dependency in dependency order, each with
the layout of its handle, and one output tensor viewing the output handle with its
layout. The output type of the evaluator is the converted output data type of the
instance when the evaluator is constructed in this call (`op` empty at entry), and
otherwise the type the cached evaluator was configured with. Afterwards the output
buffer holds the result of the evaluator, for that type, on the dependency
contents, every other buffer is as before and the returned event is signaled. In
the scenario of an int32 output of length 5 and the arithmetic sequence generator
started at 0 the output buffer is 0, 1, 2, 3, 4. -/
theorem execute_impl_evaluates_into_output (env : backend) (self : range_impl)
    (events : List Nat) (inst : range_inst) (w : world) (ev : Nat)
    (hs : (self.execute_impl env events inst w).out = .returned ev) :
    (∃ r t, (execute_calls env self events inst w).filter call.is_evaluate
        = [.evaluate r t
            [make_host_tensor inst.output_memory_ptr.layout inst.output_memory_ptr.id]
            (inst.dependencies.map fun m => make_host_tensor m.layout m.id) true]
      ∧ (self.execute_impl env events inst w).impl.op = some r
      ∧ (self.execute_impl env events inst w).world.op_output_type r = t
      ∧ (self.op = none →
          r = w.next_op
          ∧ t = env.data_type_to_element_type inst.impl_params.output_layout.data_type)
      ∧ (∀ r0, self.op = some r0 → r = r0 ∧ t = w.op_output_type r0)
      ∧ (self.execute_impl env events inst w).world.buffer inst.output_memory_ptr.id
          = (env.evaluate t
              [tensor_data.mk inst.output_memory_ptr.layout
                (w.buffer inst.output_memory_ptr.id)]
              (inst.dependencies.map fun m => tensor_data.mk m.layout (w.buffer m.id))).2)
    ∧ (execute_calls env self events inst w).countP call.is_evaluate = 1
    ∧ (∀ i, i ≠ inst.output_memory_ptr.id →
        (self.execute_impl env events inst w).world.buffer i = w.buffer i)
    ∧ (self.execute_impl env events inst w).world.signaled ev = true
    ∧ (range_impl.default.execute_impl ref_backend [] inst_one_dep w0).world.buffer 20
        = [0, 1, 2, 3, 4] := by
  obtain ⟨hok, hev⟩ := eval_ok_of_returned env self events inst w ev hs
  refine ⟨⟨self.op_ref w, self.op_type env inst w, ?_, ?_, ?_, ?_, ?_, ?_⟩, ?_, ?_, ?_,
    by decide⟩
  · rw [filter_evaluate, hok]; rfl
  · rw [execute_impl_impl]
  · rw [execute_impl_op_type_after]
  · intro h
    simp [range_impl.op_ref, range_impl.op_type, h]
  · intro r0 h
    simp [range_impl.op_ref, range_impl.op_type, h]
  · rw [execute_impl_buffer]
    simp [range_impl.eval_result]
  · rw [List.countP_eq_length_filter, filter_evaluate]; rfl
  · intro i hi
    rw [execute_impl_buffer]
    simp [hi]
  · rw [execute_impl_ok env self events inst w hok, hev]
    simp

theorem execute_impl_evaluates_into_output_witness :
    (range_impl.default.execute_impl ref_backend [5] inst_three_deps w0).out = .returned 0
    ∧ (execute_calls ref_backend range_impl.default [5] inst_three_deps w0).countP
        call.is_evaluate = 1
    ∧ (range_impl.default.execute_impl ref_backend [5] inst_three_deps w0).world.signaled 0
        = true
    ∧ (built_i32.impl.execute_impl ref_backend [0] inst_one_dep_f32 built_i32.world).out
        = .returned 1
    ∧ (execute_calls ref_backend built_i32.impl [0] inst_one_dep_f32 built_i32.world).countP
        call.is_evaluate = 1 :=
  have h := execute_impl_evaluates_into_output ref_backend range_impl.default [5]
    inst_three_deps w0 0 (by decide)
  have h2 := execute_impl_evaluates_into_output ref_backend built_i32.impl [0]
    inst_one_dep_f32 built_i32.world 1 (by decide)
  ⟨by decide, h.2.1, h.2.2.2.1, by decide, h2.2.1⟩

/-! ## Release of the dependency views -/

/-- C9: in a successful call of `execute_impl` every dependency is locked once, in
read mode on the stream of the instance, and unlocked once on that stream, in
dependency order, so that a handle is locked and unlocked as many times as it
occurs among the dependencies; the evaluator is invoked once; every unlock comes
after the evaluation and before `set`; the returned event is the one created in
the call, set exactly once and returned once; afterwards every lock count is what
it was before the call and the event is signaled. -/
theorem execute_impl_releases_dependency_views (env : backend) (self : range_impl)
    (events : List Nat) (inst : range_inst) (w : world) (ev : Nat)
    (hs : (self.execute_impl env events inst w).out = .returned ev) :
    (execute_calls env self events inst w).filter call.is_lock
      = inst.dependencies.map (fun m => call.lock m.id inst.stream .read)
    ∧ (execute_calls env self events inst w).filter call.is_unlock
      = inst.dependencies.map (fun m => call.unlock m.id inst.stream)
    ∧ (∀ i, (execute_calls env self events inst w).count (.lock i inst.stream .read) = (inst.dependencies.map memory.id).count i
        ∧ (execute_calls env self events inst w).count (.unlock i inst.stream) = (inst.dependencies.map memory.id).count i)
    ∧ (execute_calls env self events inst w).countP call.is_evaluate = 1
    ∧ all_before call.is_evaluate call.is_unlock (execute_calls env self events inst w)
    ∧ all_before call.is_unlock call.is_set (execute_calls env self events inst w)
    ∧ (execute_calls env self events inst w).filter call.is_create = [.create_user_event inst.stream false ev]
    ∧ (execute_calls env self events inst w).filter call.is_set = [.set ev]
    ∧ (execute_calls env self events inst w).filter call.is_ret = [.ret ev]
    ∧ (self.execute_impl env events inst w).world.lock_count = w.lock_count
    ∧ (self.execute_impl env events inst w).world.signaled ev = true := by
  obtain ⟨hok, hev⟩ := eval_ok_of_returned env self events inst w ev hs
  subst hev
  have hsorted := execute_calls_sorted env self events inst w
  have hl := filter_lock env self events inst w
  have hu : (execute_calls env self events inst w).filter call.is_unlock
      = inst.dependencies.map (fun m => call.unlock m.id inst.stream) := by
    rw [filter_unlock, hok]; rfl
  refine ⟨hl, hu, ?_, ?_, ?_, ?_, filter_create env self events inst w, ?_, ?_, ?_, ?_⟩
  · intro i
    constructor
    · rw [← List.count_filter (show call.is_lock (.lock i inst.stream .read) = true from rfl),
        hl, count_lock_map]
    · rw [← List.count_filter (show call.is_unlock (.unlock i inst.stream) = true from rfl),
        hu, count_unlock_map]
  · rw [List.countP_eq_length_filter, filter_evaluate]; rfl
  · apply all_before_of_phase _ _ _ hsorted
    intro a b ha hb
    rw [phase_of_is_evaluate a ha, phase_of_is_unlock b hb]; decide
  · apply all_before_of_phase _ _ _ hsorted
    intro a b ha hb
    rw [phase_of_is_unlock a ha, phase_of_is_set b hb]; decide
  · rw [filter_set, hok]; rfl
  · rw [filter_ret, hok]; rfl
  · rw [execute_impl_ok env self events inst w hok]
  · rw [execute_impl_ok env self events inst w hok]
    simp

theorem execute_impl_releases_dependency_views_witness :
    (range_impl.default.execute_impl ref_backend [5] inst_three_deps w0).out = .returned 0
    ∧ (execute_calls ref_backend range_impl.default [5] inst_three_deps w0).filter
        call.is_unlock = [.unlock 10 7, .unlock 11 7, .unlock 12 7]
    ∧ (execute_calls ref_backend range_impl.default [5] inst_three_deps w0).filter
        call.is_set = [.set 0] :=
  have h := execute_impl_releases_dependency_views ref_backend range_impl.default [5]
    inst_three_deps w0 0 (by decide)
  ⟨by decide, h.2.1, h.2.2.2.2.2.2.2.1⟩

/-! ## Locks left behind by a failed evaluation -/

/-- C10, refuted as stated: with memory 10 bound to the first and the third
dependency and a failing evaluator, the call ends in the fatal error without any
unlock, and the lock count of memory 10 is two higher than before the call, not
one higher. -/
theorem aliased_dependency_lock_count_rises_by_two :
    call.evaluate 0 .i32 [⟨out_i32, 20⟩] [⟨scalar_i32, 10⟩, ⟨scalar_i32, 11⟩, ⟨scalar_i32, 10⟩]
        false ∈ execute_calls failing_backend range_impl.default [] inst_aliased_deps w0
    ∧ (execute_calls failing_backend range_impl.default [] inst_aliased_deps w0).filter
        call.is_lock = [.lock 10 7 .read, .lock 11 7 .read, .lock 10 7 .read]
    ∧ (execute_calls failing_backend range_impl.default [] inst_aliased_deps w0).filter
        call.is_unlock = []
    ∧ w0.lock_count 10 = 0
    ∧ (range_impl.default.execute_impl failing_backend [] inst_aliased_deps w0).world.lock_count
        10 = 2
    ∧ (range_impl.default.execute_impl failing_backend [] inst_aliased_deps w0).world.lock_count
        10 ≠ w0.lock_count 10 + 1 := by
  decide

/-- C10, amended: when the evaluator returns failure in a call of `execute_impl`,
the call ends in the fatal error, thrown after all input locks; every dependency
has been locked once, in read mode, and no unlock is made, so that the lock count
of a handle is higher than before the call by the number of dependencies it is
bound to; the scoped lock on the output handle is taken once and released once,
after the throw. -/
theorem execute_impl_failure_keeps_dependency_locks (env : backend) (self : range_impl)
    (events : List Nat) (inst : range_inst) (w : world) (r : Nat) (t : element_type)
    (outs ins : List host_tensor)
    (hfail : call.evaluate r t outs ins false ∈ execute_calls env self events inst w) :
    (∃ msg, (self.execute_impl env events inst w).out = .fatal msg
      ∧ (execute_calls env self events inst w).filter call.is_throw = [.throw msg])
    ∧ (execute_calls env self events inst w).filter call.is_lock
        = inst.dependencies.map (fun m => call.lock m.id inst.stream .read)
    ∧ (execute_calls env self events inst w).filter call.is_unlock = []
    ∧ (∀ i, (self.execute_impl env events inst w).world.lock_count i
        = w.lock_count i + (inst.dependencies.map memory.id).count i)
    ∧ (execute_calls env self events inst w).filter call.is_mem_lock_ctor
        = [.mem_lock_ctor inst.output_memory_ptr.id inst.stream .read]
    ∧ (execute_calls env self events inst w).filter call.is_mem_lock_dtor
        = [.mem_lock_dtor inst.output_memory_ptr.id inst.stream]
    ∧ all_before call.is_lock call.is_throw (execute_calls env self events inst w)
    ∧ all_before call.is_throw call.is_mem_lock_dtor (execute_calls env self events inst w) := by
  have hfail2 := hfail
  rw [execute_calls_eq] at hfail2
  have hok : (self.eval_result env inst w).1 = false :=
    (evaluate_mem_expected env self events inst w r t outs ins false hfail2).2.2.2.2.symm
  have hsorted := execute_calls_sorted env self events inst w
  have hcount : ∀ i, (self.execute_impl env events inst w).world.lock_count i
      = w.lock_count i + (inst.dependencies.map memory.id).count i := by
    intro i
    rw [execute_impl_fail env self events inst w hok]
  refine ⟨⟨failure_message env inst, ?_, ?_⟩, filter_lock env self events inst w, ?_, hcount,
    filter_mem_lock_ctor env self events inst w, filter_mem_lock_dtor env self events inst w,
    ?_, ?_⟩
  · rw [execute_impl_out, hok]; simp
  · rw [filter_throw, hok]; simp
  · rw [filter_unlock, hok]; simp
  · apply all_before_of_phase _ _ _ hsorted
    intro a b ha hb
    rw [phase_of_is_lock a ha, phase_of_is_throw b hb]; decide
  · apply all_before_of_phase _ _ _ hsorted
    intro a b ha hb
    rw [phase_of_is_throw a ha, phase_of_is_dtor b hb]; decide

theorem execute_impl_failure_keeps_dependency_locks_witness :
    call.evaluate 0 .i32 [⟨out_i32, 20⟩] [⟨scalar_i32, 10⟩, ⟨scalar_i32, 11⟩, ⟨scalar_i32, 12⟩]
        false ∈ execute_calls failing_backend range_impl.default [5] inst_three_deps w0
    ∧ (execute_calls failing_backend range_impl.default [5] inst_three_deps w0).filter
        call.is_unlock = []
    ∧ (∀ i, (range_impl.default.execute_impl failing_backend [5] inst_three_deps w0).world.lock_count
          i = w0.lock_count i + (inst_three_deps.dependencies.map memory.id).count i)
    ∧ (execute_calls failing_backend range_impl.default [5] inst_three_deps w0).filter
        call.is_mem_lock_dtor = [.mem_lock_dtor 20 7] :=
  have h := execute_impl_failure_keeps_dependency_locks failing_backend range_impl.default [5]
    inst_three_deps w0 0 .i32 [⟨out_i32, 20⟩]
    [⟨scalar_i32, 10⟩, ⟨scalar_i32, 11⟩, ⟨scalar_i32, 12⟩] (by decide)
  ⟨by decide, h.2.2.1, h.2.2.2.1, h.2.2.2.2.2.1⟩

end cldnn
